import Mathlib

/-!
Verification development for the spreadsheet-driven form automation repository.

The development shallowly embeds the three source modules:
  - the spreadsheet reader (src/excel.js): primary exceljs parse with a
    sheetjs fallback, and header normalization against a fixed whitelist;
  - the loan-disbursement form filler (src/fillLoanDisbursementFromExcel.js):
    puppeteer safe helpers and the per-row fill workflow;
  - the driver (automation.customized.js): playwright safe helpers, the
    login-retry loop and the row iteration loop.

Remote pages are modelled as state-threaded oracles: every browser primitive
is a function from its arguments and an abstract page state to a pair of an
outcome (Except String, where error models a rejected promise) and a new
state.  JavaScript try/catch is modelled explicitly; helpers written with
try/catch in the source are total by construction, and the theorems state
this against bodies whose type permits rejection.
-/

namespace Automation

/-! ## JavaScript object model

A JavaScript object is modelled as an association list of string keys to
string values; keys are unique in a real object, insertion order is the
iteration order.  Lookup takes the first matching entry. -/

abbrev Obj := List (String × String)

def lookupJS (obj : Obj) (k : String) : Option String :=
  (obj.find? (fun kv => kv.1 == k)).map (fun kv => kv.2)

/-- JavaScript a-or-b on strings: the empty string is the only falsy string. -/
def jsOr (a b : String) : String := if a = "" then b else a

/-- Truthiness of an optional string property (undefined and the empty string
are falsy). -/
def truthyOpt : Option String → Bool
  | none => false
  | some v => !(v == "")

/-- Object assignment: overwrite in place when the key exists, append
otherwise (JavaScript key-insertion order). -/
def insertJS (obj : Obj) (k v : String) : Obj :=
  if (obj.find? (fun kv => kv.1 == k)).isSome then
    obj.map (fun kv => if kv.1 == k then (k, v) else kv)
  else obj ++ [(k, v)]

/-- Substring containment over char lists: does the list start with pat. -/
def charsStartWith : List Char → List Char → Bool
  | _, [] => true
  | [], _ :: _ => false
  | c :: cs, d :: ds => c == d && charsStartWith cs ds

def charsContain : List Char → List Char → Bool
  | [], pat => pat.isEmpty
  | c :: cs, pat => charsStartWith (c :: cs) pat || charsContain cs pat

/-- JavaScript String.prototype.includes. -/
def containsSub (s pat : String) : Bool := charsContain s.data pat.data

/-- Model of JavaScript String.prototype.toLowerCase: lowercase each
character. -/
def lowerStr (s : String) : String := ⟨s.data.map Char.toLower⟩

/-- Whitespace for the trim model. -/
def isWS (c : Char) : Bool := c == ' ' || c == '\t' || c == '\n' || c == '\r'

def dropLeadWS : List Char → List Char
  | [] => []
  | c :: cs => if isWS c then dropLeadWS cs else c :: cs

def dropTailWS (l : List Char) : List Char := (dropLeadWS l.reverse).reverse

/-- Model of JavaScript String.prototype.trim: strip leading and trailing
whitespace. -/
def trimStr (s : String) : String := ⟨dropTailWS (dropLeadWS s.data)⟩

namespace Excel

/-! ## Row Source (src/excel.js)

readExcel resolves the path, rejects missing or empty files, then tries
exceljs; on a thrown parse error it falls back to sheetjs; if that also
throws it raises the combined fatal error. -/

/-- The normalized record produced for every data row.  The fixed whitelist
fields are exactly the structure fields; every field is a string, possibly
empty. -/
structure Record where
  UserName : String
  Password : String
  Language : String
  LoginDataTime : String
  ValidateCaptcha : String
  NextPage : String
  Field1 : String
  Field2 : String
deriving Repr, DecidableEq

/-- Embedding of the get closure inside normalizeRow: for each candidate
name, first an exact hasOwnProperty lookup, then the first key equal up to
letter case; the JavaScript truthiness test on the found key means an
empty-string key is skipped. -/
def jsGet (obj : Obj) : List String → String
  | [] => ""
  | n :: rest =>
    match obj.find? (fun kv => kv.1 == n) with
    | some kv => kv.2
    | none =>
      match obj.find? (fun kv => lowerStr kv.1 == lowerStr n) with
      | some kv => if kv.1 == "" then jsGet obj rest else kv.2
      | none => jsGet obj rest

/-- Embedding of normalizeRow from src/excel.js. -/
def normalizeRow (obj : Obj) : Record where
  UserName := jsOr (jsGet obj ["UserName", "username", "user"]) ""
  Password := jsOr (jsGet obj ["Password", "password"]) ""
  Language := jsOr (jsGet obj ["Language", "language"]) ""
  LoginDataTime := jsOr (jsGet obj ["LoginDataTime", "loginDate", "LoginDate"]) ""
  ValidateCaptcha := jsOr (jsGet obj ["ValidateCaptcha", "captcha", "ValidateCaptcha"]) ""
  NextPage := jsOr (jsGet obj ["NextPage", "nextpage"]) ""
  Field1 := jsOr (jsGet obj ["Field1", "field1"]) ""
  Field2 := jsOr (jsGet obj ["Field2", "field2"]) ""

/-- An exceljs worksheet: the first row is the header row; dataRows are the
rows eachRow visits after row 1 (eachRow skips fully empty rows).  A cell is
none when its value is null or undefined. -/
structure SheetE where
  headers : List (Option String)
  dataRows : List (List (Option String))
deriving Repr, DecidableEq

/-- Cell rendering in the exceljs data path: toString then trim, with null
and undefined becoming the empty string. -/
def cellString : Option String → String
  | some v => trimStr v
  | none => ""

/-- Header cell rendering in the exceljs path: nullish-coalesce to the empty
string, toString, trim. -/
def headerString (c : Option String) : String := trimStr (c.getD "")

/-- Build the per-row object in the exceljs path: for each column with a
non-empty trimmed header, assign the rendered cell value. -/
def buildObjE (headers : List String) (cells : List (Option String)) : Obj :=
  (headers.zip cells).foldl
    (fun o hv => if hv.1 == "" then o else insertJS o hv.1 (cellString hv.2)) []

/-- Rows produced by the exceljs path of readExcel. -/
def exceljsRows (sheet : SheetE) : List Record :=
  sheet.dataRows.map
    (fun cells => normalizeRow (buildObjE (sheet.headers.map headerString) cells))

/-- Rows produced by the sheetjs fallback path: sheet_to_json already yields
objects keyed by header; values are stringified and trimmed. -/
def sheetjsRows (raw : List Obj) : List Record :=
  raw.map (fun r => normalizeRow (r.map (fun kv => (kv.1, trimStr kv.2))))

/-- Input model for readExcel: filesystem preconditions and the outcomes of
the two parsers.  An error value models the parser throwing; ok none models
a workbook with no worksheet (exceljs) or no sheet name (sheetjs). -/
structure FileModel where
  pathExists : Bool
  isFile : Bool
  size : Nat
  exceljs : Except String (Option SheetE)
  sheetjs : Except String (Option (List Obj))

/-- Outcome of the sheetjs fallback branch of readExcel, including the
combined fatal error raised when the fallback also throws. -/
def sheetjsOutcome : Except String (Option (List Obj)) → Except String (List Record)
  | .ok none => .ok []
  | .ok (some raw) => .ok (sheetjsRows raw)
  | .error e => .error ("Failed to read Excel with both exceljs and xlsx: " ++ e)

/-- Embedding of readExcel from src/excel.js. -/
def readExcel (f : FileModel) : Except String (List Record) :=
  if !f.pathExists then .error "Excel file not found"
  else if !f.isFile || f.size == 0 then .error "Excel file is empty or not a regular file"
  else
    match f.exceljs with
    | .ok none => .ok []
    | .ok (some sheet) => .ok (exceljsRows sheet)
    | .error _ => sheetjsOutcome f.sheetjs

/-! Specification-side definitions for the refinement claims. -/

/-- Case-insensitive field extraction written from the words of the spec:
the first whitelist alias that some key of the object matches up to letter
case gives the value, a missing field defaults to the empty string. -/
def specGet (obj : Obj) : List String → String
  | [] => ""
  | n :: rest =>
    match obj.find? (fun kv => lowerStr kv.1 == lowerStr n) with
    | some kv => kv.2
    | none => specGet obj rest

/-- The record the spec describes: every whitelist field present, matched
case-insensitively, unmatched headers ignored, missing fields empty. -/
def specNormalize (obj : Obj) : Record where
  UserName := specGet obj ["UserName", "username", "user"]
  Password := specGet obj ["Password", "password"]
  Language := specGet obj ["Language", "language"]
  LoginDataTime := specGet obj ["LoginDataTime", "loginDate", "LoginDate"]
  ValidateCaptcha := specGet obj ["ValidateCaptcha", "captcha", "ValidateCaptcha"]
  NextPage := specGet obj ["NextPage", "nextpage"]
  Field1 := specGet obj ["Field1", "field1"]
  Field2 := specGet obj ["Field2", "field2"]

/-- Headers of the object are pairwise distinct up to letter case (a
well-formed header row). -/
def ciUnique : Obj → Bool
  | [] => true
  | kv :: rest => rest.all (fun x => !(lowerStr x.1 == lowerStr kv.1)) && ciUnique rest

lemma lowerStr_eq_empty {s : String} (h : lowerStr s = "") : s = "" := by
  have hd : s.data.map Char.toLower = [] := congrArg String.data h
  have : s.data = [] := List.map_eq_nil_iff.mp hd
  cases s
  simp_all

lemma ciUnique_head {a : String × String} {rest : Obj}
    (h : ciUnique (a :: rest) = true) :
    (∀ x ∈ rest, lowerStr x.1 ≠ lowerStr a.1) ∧ ciUnique rest = true := by
  simp only [ciUnique, Bool.and_eq_true, List.all_eq_true] at h
  refine ⟨fun x hx => ?_, h.2⟩
  have := h.1 x hx
  simpa using this

/-- Under case-insensitively unique keys, an exact key hit is also the first
case-insensitive hit. -/
lemma find?_ci_of_exact (obj : Obj) (n : String) (h : ciUnique obj = true)
    (kv : String × String) (hf : obj.find? (fun x => x.1 == n) = some kv) :
    obj.find? (fun x => lowerStr x.1 == lowerStr n) = some kv := by
  induction obj with
  | nil => simp at hf
  | cons a rest ih =>
    obtain ⟨hhead, htail⟩ := ciUnique_head h
    by_cases ha : a.1 = n
    · rw [List.find?_cons_of_pos _ (by simp [ha])] at hf
      rw [List.find?_cons_of_pos _ (by simp [ha])]
      exact hf
    · rw [List.find?_cons_of_neg _ (by simp [ha])] at hf
      have hkv : kv.1 = n := by
        have := List.find?_some hf
        simpa using this
      have hmem : kv ∈ rest := List.mem_of_find?_eq_some hf
      have hne : ¬ (lowerStr a.1 == lowerStr n) = true := by
        intro hb
        have hab : lowerStr a.1 = lowerStr n := eq_of_beq hb
        have := hhead kv hmem
        rw [hkv] at this
        exact this hab.symm
      rw [List.find?_cons_of_neg (p := fun x : String × String => lowerStr x.1 == lowerStr n) rest hne]
      exact ih htail hf

/-- The get closure of normalizeRow coincides with the purely
case-insensitive whitelist lookup the spec describes, whenever the keys are
case-insensitively unique and the candidate names are non-empty. -/
lemma jsGet_eq_specGet (obj : Obj) (h : ciUnique obj = true) :
    ∀ names : List String, (∀ n ∈ names, n ≠ "") →
      jsGet obj names = specGet obj names := by
  intro names
  induction names with
  | nil => simp [jsGet, specGet]
  | cons n rest ih =>
    intro hne
    have hn : n ≠ "" := hne n (List.mem_cons_self n rest)
    have hrest : ∀ m ∈ rest, m ≠ "" := fun m hm => hne m (List.mem_cons_of_mem _ hm)
    simp only [jsGet, specGet]
    cases hf : obj.find? (fun x => x.1 == n) with
    | some kv => rw [find?_ci_of_exact obj n h kv hf]
    | none =>
      cases hci : obj.find? (fun x => lowerStr x.1 == lowerStr n) with
      | some kv =>
        have hpred : lowerStr kv.1 = lowerStr n := by
          have := List.find?_some (p := fun x : String × String => lowerStr x.1 == lowerStr n) hci
          simpa using this
        have hkvne : ¬ (kv.1 == "") = true := by
          intro hb
          have hk : kv.1 = "" := by simpa using hb
          have : lowerStr n = "" := by
            rw [hk] at hpred
            simpa [lowerStr] using hpred.symm
          exact hn (lowerStr_eq_empty this)
        simp [hkvne]
      | none => exact ih hrest

lemma jsOr_empty (s : String) : jsOr s "" = s := by
  by_cases h : s = "" <;> simp [jsOr, h]

/-- normalizeRow refines the spec description of a Record whenever the row
object has case-insensitively unique keys. -/
lemma normalizeRow_eq_spec (obj : Obj) (h : ciUnique obj = true) :
    normalizeRow obj = specNormalize obj := by
  simp only [normalizeRow, specNormalize, jsOr_empty, Excel.Record.mk.injEq]
  refine ⟨?_, ?_, ?_, ?_, ?_, ?_, ?_, ?_⟩ <;>
    exact jsGet_eq_specGet obj h _ (by decide)

/-- C3: for every input file passing the filesystem preconditions, a primary
parser failure routes the result through the secondary parser; the fatal
combined read error arises exactly when, in addition, the secondary parser
fails; and a primary success never reaches the fallback. -/
theorem readExcel_fallback (f : FileModel) (hpe : f.pathExists = true)
    (hif : f.isFile = true) (hsz : f.size ≠ 0) :
    (∀ e, f.exceljs = .error e → readExcel f = sheetjsOutcome f.sheetjs) ∧
    (∀ e e2, f.exceljs = .error e → f.sheetjs = .error e2 →
      readExcel f = .error ("Failed to read Excel with both exceljs and xlsx: " ++ e2)) ∧
    (∀ r, f.exceljs = .ok r → ∃ recs, readExcel f = .ok recs) := by
  have hz : (f.size == 0) = false := by
    simp [hsz]
  refine ⟨?_, ?_, ?_⟩
  · intro e he
    simp [readExcel, hpe, hif, hz, he]
  · intro e e2 he he2
    simp [readExcel, hpe, hif, hz, he, he2, sheetjsOutcome]
  · intro r hr
    cases r with
    | none => exact ⟨[], by simp [readExcel, hpe, hif, hz, hr]⟩
    | some sheet => exact ⟨exceljsRows sheet, by simp [readExcel, hpe, hif, hz, hr]⟩

/-- Example file whose primary parse throws and whose fallback succeeds. -/
def fallbackFile : FileModel where
  pathExists := true
  isFile := true
  size := 64
  exceljs := .error "zip corrupted"
  sheetjs := .ok (some [[("UserName", "alice "), ("Field1", "x")]])

/-- Witness for C3: on a concrete file whose primary parser throws, the
result is exactly the secondary parser outcome, and with a failing secondary
parser the combined fatal error is raised. -/
theorem readExcel_fallback_w :
    readExcel fallbackFile = sheetjsOutcome fallbackFile.sheetjs ∧
    readExcel { fallbackFile with sheetjs := .error "bad file" } =
      .error "Failed to read Excel with both exceljs and xlsx: bad file" :=
  ⟨(readExcel_fallback fallbackFile rfl rfl (by decide)).1 "zip corrupted" rfl,
   (readExcel_fallback { fallbackFile with sheetjs := .error "bad file" } rfl rfl
      (by decide)).2.1 "zip corrupted" "bad file" rfl rfl⟩

/-- C4: for every well-formed input file, each parser path yields exactly one
Record per data row (every Record carries all eight whitelist fields by
construction), and on rows with case-insensitively unique headers the
normalization is exactly the spec one: case-insensitive whitelist matching,
unmatched headers ignored, missing fields defaulting to the empty string. -/
theorem readExcel_one_record_per_row (f : FileModel) (hpe : f.pathExists = true)
    (hif : f.isFile = true) (hsz : f.size ≠ 0) :
    (∀ sheet, f.exceljs = .ok (some sheet) →
      readExcel f = .ok (exceljsRows sheet) ∧
      (exceljsRows sheet).length = sheet.dataRows.length) ∧
    (∀ e raw, f.exceljs = .error e → f.sheetjs = .ok (some raw) →
      readExcel f = .ok (sheetjsRows raw) ∧ (sheetjsRows raw).length = raw.length) ∧
    (∀ obj : Obj, ciUnique obj = true → normalizeRow obj = specNormalize obj) := by
  have hz : (f.size == 0) = false := by
    simp [hsz]
  refine ⟨?_, ?_, fun obj h => normalizeRow_eq_spec obj h⟩
  · intro sheet hs
    exact ⟨by simp [readExcel, hpe, hif, hz, hs], by simp [exceljsRows]⟩
  · intro e raw he hraw
    exact ⟨by simp [readExcel, hpe, hif, hz, he, hraw, sheetjsOutcome], by simp [sheetjsRows]⟩

/-- Example well-formed file for the C4 witness: two data rows under
case-varied headers. -/
def wellFormedFile : FileModel where
  pathExists := true
  isFile := true
  size := 128
  exceljs := .ok (some
    { headers := [some "username", some "PASSWORD", some "Extra"]
      dataRows := [[some "alice", some "a1", some "zz"], [some "bob", none]] })
  sheetjs := .error "unused"

/-- Witness for C4: the concrete well-formed file yields one Record per data
row, and a concrete case-varied row object normalizes exactly as the spec
describes. -/
theorem readExcel_one_record_per_row_w :
    (exceljsRows { headers := [some "username", some "PASSWORD", some "Extra"]
                   dataRows := [[some "alice", some "a1", some "zz"], [some "bob", none]] }).length = 2 ∧
    normalizeRow [("USERNAME", "alice"), ("Extra", "zz")] =
      specNormalize [("USERNAME", "alice"), ("Extra", "zz")] ∧
    normalizeRow [("USERNAME", "alice"), ("Extra", "zz")] =
      { UserName := "alice", Password := "", Language := "", LoginDataTime := ""
        ValidateCaptcha := "", NextPage := "", Field1 := "", Field2 := "" } :=
  ⟨((readExcel_one_record_per_row wellFormedFile rfl rfl (by decide)).1 _ rfl).2,
   (readExcel_one_record_per_row wellFormedFile rfl rfl (by decide)).2.2
      [("USERNAME", "alice"), ("Extra", "zz")] (by decide),
   by decide⟩

end Excel

/-! ## State-threaded page oracles

A primitive browser call takes its arguments and the current abstract page
state and yields an Except outcome (error models a rejected promise) and the
state afterwards.  State mutations made before a throw persist, as in
JavaScript. -/

abbrev PRes (σ α : Type) := Except String α × σ

/-- Promise.catch with a default result value. -/
def catchTo (r : PRes σ α) (d : α) : α × σ :=
  match r with
  | (.ok a, s) => (a, s)
  | (.error _, s) => (d, s)

/-- A try block returning Bool whose catch clause returns false.  The result
type still permits errors, so that never-throwing is a theorem rather than a
typing artifact. -/
def tryBool (body : σ → PRes σ Bool) (s : σ) : PRes σ Bool :=
  match body s with
  | (.ok b, s1) => (.ok b, s1)
  | (.error _, s1) => (.ok false, s1)

namespace Loan

/-! ## Loan form filler (src/fillLoanDisbursementFromExcel.js)

The puppeteer page is an oracle over an abstract state.  waitForTimeout is a
plain timer and never rejects; every page.evaluate or page.click call is a
separate primitive that may reject. -/

structure PPage (σ : Type) where
  waitForSelector : String → Nat → σ → PRes σ Unit
  scrollIntoView : String → σ → PRes σ Unit
  click : String → σ → PRes σ Unit
  setValueScript : String → String → σ → PRes σ Unit
  focusSel : String → σ → PRes σ Unit
  selectByValue : String → String → σ → PRes σ (List String)
  dispatchChange : String → σ → PRes σ Unit
  selectByTextScript : String → String → σ → PRes σ Bool
  setCheckboxScript : String → String → σ → PRes σ Unit
  tagNameOf : String → σ → PRes σ (Option String)
  typeOf : String → σ → PRes σ (Option String)
  queryExists : String → σ → PRes σ Bool
  clickButtonScript : String → σ → PRes σ Unit
  goto : String → σ → PRes σ Unit
  submitFormScript : σ → PRes σ Unit
  waitForTimeout : Nat → σ → σ

/-- Body of safeClick: wait for the selector, scroll it into view, click. -/
def safeClickBody (p : PPage σ) (sel : String) (s : σ) : PRes σ Bool :=
  match p.waitForSelector sel 5000 s with
  | (.error e, s1) => (.error e, s1)
  | (.ok _, s1) =>
    match p.scrollIntoView sel s1 with
    | (.error e, s2) => (.error e, s2)
    | (.ok _, s2) =>
      match p.click sel s2 with
      | (.error e, s3) => (.error e, s3)
      | (.ok _, s3) => (.ok true, s3)

/-- Embedding of safeClick. -/
def safeClick (p : PPage σ) (sel : String) (s : σ) : PRes σ Bool :=
  tryBool (safeClickBody p sel) s

/-- Body of setInputValue after the null guard: wait, run the value-setting
script, focus (errors swallowed), pause. -/
def setInputValueBody (p : PPage σ) (sel str : String) (s : σ) : PRes σ Bool :=
  match p.waitForSelector sel 4000 s with
  | (.error e, s1) => (.error e, s1)
  | (.ok _, s1) =>
    match p.setValueScript sel str s1 with
    | (.error e, s2) => (.error e, s2)
    | (.ok _, s2) =>
      let s3 := (catchTo (p.focusSel sel s2) ()).2
      (.ok true, p.waitForTimeout 120 s3)

/-- Embedding of setInputValue: null and undefined values return false
before the try block. -/
def setInputValue (p : PPage σ) (sel : String) (v : Option String) (s : σ) : PRes σ Bool :=
  match v with
  | none => (.ok false, s)
  | some str => tryBool (setInputValueBody p sel str) s

/-- Body of selectOption: wait, try select-by-value (a rejection there is
caught to the empty selection), then fall back to the select-by-visible-text
script. -/
def selectOptionBody (p : PPage σ) (sel str : String) (s : σ) : PRes σ Bool :=
  match p.waitForSelector sel 4000 s with
  | (.error e, s1) => (.error e, s1)
  | (.ok _, s1) =>
    match catchTo (p.selectByValue sel str s1) [] with
    | (selected, s2) =>
      if selected.isEmpty then
        match p.selectByTextScript sel str s2 with
        | (.error e, s3) => (.error e, s3)
        | (.ok b, s3) => (.ok b, p.waitForTimeout 100 s3)
      else
        match p.dispatchChange sel s2 with
        | (.error e, s3) => (.error e, s3)
        | (.ok _, s3) => (.ok true, p.waitForTimeout 150 s3)

/-- Embedding of selectOption with its null guard. -/
def selectOption (p : PPage σ) (sel : String) (v : Option String) (s : σ) : PRes σ Bool :=
  match v with
  | none => (.ok false, s)
  | some str => tryBool (selectOptionBody p sel str) s

/-- Body of setCheckbox: wait then run the checkbox script. -/
def setCheckboxBody (p : PPage σ) (sel v : String) (s : σ) : PRes σ Bool :=
  match p.waitForSelector sel 3000 s with
  | (.error e, s1) => (.error e, s1)
  | (.ok _, s1) =>
    match p.setCheckboxScript sel v s1 with
    | (.error e, s2) => (.error e, s2)
    | (.ok _, s2) => (.ok true, s2)

/-- Embedding of setCheckbox. -/
def setCheckbox (p : PPage σ) (sel v : String) (s : σ) : PRes σ Bool :=
  tryBool (setCheckboxBody p sel v) s

/-- The default Excel-header-to-field-id mapping of the module. -/
def DEFAULT_FIELD_MAP : Obj :=
  [("Admissionno", "Admissionno"),
   ("AdmissionNoHidden", "AdmissionNoPkey"),
   ("ValueDate", "ValueDate"),
   ("Product", "Product"),
   ("AccountNo", "AccountNo"),
   ("TempAccountNo", "TempAccountNo"),
   ("ActivityType", "ActivityType"),
   ("VoucherType", "VoucherType"),
   ("ChequeNo", "ChequeNo"),
   ("ChequeDate", "ChequeDate"),
   ("VoucherNo", "VoucherNo"),
   ("ContraProduct", "ContraProduct"),
   ("ContraAccountNo", "ContraAccountNo"),
   ("SocietyVoucherNo", "SocietyVoucherNo"),
   ("Narration", "Narration"),
   ("TotalAmount", "TotalAmount"),
   ("AmountInWords", "AmountInWords"),
   ("MoreDisbursementDetaos_ApplicationNo", "MoreDisbursementDetaos_ApplicationNo"),
   ("MoreDisbursementDetaos_AdmissionNoPkey", "MoreDisbursementDetaos_AdmissionNoPkey"),
   ("MoreDisbursementDetaos_ProductSlNo", "MoreDisbursementDetaos_ProductSlNo"),
   ("MoreDisbursementDetaos_LoanNo", "MoreDisbursementDetaos_LoanNo"),
   ("MoreDisbursementDetaos_OldLoanNo", "MoreDisbursementDetaos_OldLoanNo"),
   ("MoreDisbursementDetaos_DPNDate", "MoreDisbursementDetaos_DPNDate"),
   ("MoreDisbursementDetaos_DPNNo", "MoreDisbursementDetaos_DPNNo"),
   ("MoreDisbursementDetaos_DueDate", "MoreDisbursementDetaos_DueDate"),
   ("MoreDisbursementDetaos_DateOfAdvice", "MoreDisbursementDetaos_DateOfAdvice"),
   ("MoreDisbursementDetaos_DebitSlipNo", "MoreDisbursementDetaos_DebitSlipNo"),
   ("MoreDisbursementDetaos_LedgerFolioNo", "MoreDisbursementDetaos_LedgerFolioNo"),
   ("MoreDisbursementDetaos_DCCBSBNo", "MoreDisbursementDetaos_DCCBSBNo"),
   ("MoreDisbursementDetaos_PolicyName", "MoreDisbursementDetaos_PolicyName"),
   ("MoreDisbursementDetaos_ROI", "MoreDisbursementDetaos_ROI"),
   ("MoreDisbursementDetaos_PenalROI", "MoreDisbursementDetaos_PenalROI"),
   ("MoreDisbursementDetaos_IOAROI", "MoreDisbursementDetaos_IOAROI"),
   ("MoreDisbursementDetaos_DisbursmentAmount", "MoreDisbursementDetaos_DisbursmentAmount"),
   ("IdTransfer", "IdTransfer"),
   ("IdCash", "IdCash"),
   ("IdCheck", "IdCheck")]

/-- Embedding of the mapHeaderToId closure: a falsy (empty) header maps to
null; a truthy mapping value is returned; otherwise the header itself. -/
def mapHeaderToId (fieldMap : Obj) (header : String) : Option String :=
  if header == "" then none
  else
    match lookupJS fieldMap header with
    | some v => if v == "" then some header else some v
    | none => some header

/-- The per-field error strings pushed into a Row Result, as tagged
messages; render gives the exact JavaScript text. -/
inductive ErrMsg where
  | noMapping (header : String)
  | couldNotSelect (fieldId value : String)
  | couldNotSetCheckbox (fieldId : String)
  | couldNotSetValue (fieldId : String)
  | unknownElement (fieldId : String)
deriving Repr, DecidableEq

def ErrMsg.render : ErrMsg → String
  | .noMapping h => "No mapping for Excel header " ++ h
  | .couldNotSelect f v => "Could not select " ++ f ++ " -> " ++ v
  | .couldNotSetCheckbox f => "Could not set checkbox " ++ f
  | .couldNotSetValue f => "Could not set value for " ++ f ++ " (tried id & name)"
  | .unknownElement f => "Unknown element type or not found for " ++ f

/-- The mutable rowResult accumulator during the field loop. -/
structure Acc where
  filled : List String
  errors : List ErrMsg
deriving Repr, DecidableEq

/-- A finalized Row Result. -/
structure RowResult where
  rowIndex : Nat
  filled : List String
  errors : List ErrMsg
  ok : Bool
  exception : Option String
deriving Repr, DecidableEq

/-- Options of fillLoanDisbursementFromExcel. -/
structure FillOpts where
  fieldMap : Option Obj
  submitAfterRow : Bool
  clickPrepareInsteadOfPost : Bool
  redirectUrlAfterSubmit : Option String
deriving Repr

def defaultOpts : FillOpts where
  fieldMap := none
  submitAfterRow := false
  clickPrepareInsteadOfPost := false
  redirectUrlAfterSubmit := none

/-- The heuristic that routes a field id through the checkbox probe. -/
def checkboxish (fieldId : String) : Bool :=
  containsSub (lowerStr fieldId) "is" || containsSub (lowerStr fieldId) "id" ||
    containsSub (lowerStr fieldId) "chk"

/-- Default input handling: set by id selector, fall back to the name
selector, record one filled entry or one error. -/
def inputDefault (p : PPage σ) (fieldId rawVal : String) (s : σ) (acc : Acc) :
    Except String Unit × σ × Acc :=
  match setInputValue p ("#" ++ fieldId) (some rawVal) s with
  | (.error e, s2) => (.error e, s2, acc)
  | (.ok true, s2) =>
    (.ok (), p.waitForTimeout 120 s2, { acc with filled := acc.filled ++ [fieldId] })
  | (.ok false, s2) =>
    match setInputValue p ("[name=\"" ++ fieldId ++ "\"]") (some rawVal) s2 with
    | (.error e, s3) => (.error e, s3, acc)
    | (.ok true, s3) =>
      (.ok (), p.waitForTimeout 120 s3,
        { acc with filled := acc.filled ++ [fieldId ++ "(byName)"] })
    | (.ok false, s3) =>
      (.ok (), p.waitForTimeout 120 s3,
        { acc with errors := acc.errors ++ [ErrMsg.couldNotSetValue fieldId] })

/-- One iteration of the field loop of fillLoanDisbursementFromExcel:
empty values are skipped, the header is mapped to a field id, the element
kind is probed live, and the matching safe action is dispatched; the
checkbox branch continues without the inter-field delay, as in the source. -/
def processField (p : PPage σ) (m : Obj) (colHeader rawVal : String) (s : σ) (acc : Acc) :
    Except String Unit × σ × Acc :=
  if rawVal == "" then (.ok (), s, acc)
  else
    match mapHeaderToId m colHeader with
    | none => (.ok (), s, { acc with errors := acc.errors ++ [ErrMsg.noMapping colHeader] })
    | some fieldId =>
      let selId := "#" ++ fieldId
      match catchTo (p.tagNameOf selId s) none with
      | (elementType, s1) =>
        if elementType == some "select" then
          match selectOption p selId (some rawVal) s1 with
          | (.error e, s2) => (.error e, s2, acc)
          | (.ok b, s2) =>
            (.ok (), p.waitForTimeout 120 s2,
              if b then { acc with filled := acc.filled ++ [fieldId] }
              else { acc with errors := acc.errors ++ [ErrMsg.couldNotSelect fieldId rawVal] })
        else if elementType == some "input" || elementType == some "textarea" ||
            elementType == some "null" then
          if checkboxish fieldId then
            match catchTo (p.typeOf selId s1) none with
            | (tag, s2) =>
              if tag == some "checkbox" then
                match setCheckbox p selId rawVal s2 with
                | (.error e, s3) => (.error e, s3, acc)
                | (.ok b, s3) =>
                  (.ok (), s3,
                    if b then { acc with filled := acc.filled ++ [fieldId] }
                    else { acc with errors := acc.errors ++ [ErrMsg.couldNotSetCheckbox fieldId] })
              else inputDefault p fieldId rawVal s2 acc
          else inputDefault p fieldId rawVal s1 acc
        else
          match setInputValue p selId (some rawVal) s1 with
          | (.error e, s2) => (.error e, s2, acc)
          | (.ok b, s2) =>
            (.ok (), p.waitForTimeout 120 s2,
              if b then { acc with filled := acc.filled ++ [fieldId] }
              else { acc with errors := acc.errors ++ [ErrMsg.unknownElement fieldId] })

/-- The field loop over all keys of the row object. -/
def foldFields (p : PPage σ) (m : Obj) :
    List (String × String) → σ → Acc → Except String Unit × σ × Acc
  | [], s, acc => (.ok (), s, acc)
  | kv :: rest, s, acc =>
    match processField p m kv.1 kv.2 s acc with
    | (.error e, s1, acc1) => (.error e, s1, acc1)
    | (.ok _, s1, acc1) => foldFields p m rest s1 acc1

/-- The save-sub-details step: when a MoreDisbursementDetaos field is
present, probe for the save button (page.$ may reject) and click it through
page.evaluate (which may reject). -/
def moreDisbStep (p : PPage σ) (hasMore : Bool) (s : σ) : Except String Unit × σ :=
  if hasMore then
    match p.queryExists "#btnsaveDisbursments" s with
    | (.error e, s1) => (.error e, s1)
    | (.ok true, s1) =>
      match p.clickButtonScript "#btnsaveDisbursments" s1 with
      | (.error e, s2) => (.error e, s2)
      | (.ok _, s2) => (.ok (), p.waitForTimeout 600 s2)
    | (.ok false, s1) => (.ok (), s1)
  else (.ok (), s)

/-- The optional submit step after all fields of a row. -/
def submitStep (p : PPage σ) (opts : FillOpts) (s : σ) : Except String Unit × σ :=
  if !opts.submitAfterRow then (.ok (), s)
  else
    let step1 : Except String Unit × σ :=
      if opts.clickPrepareInsteadOfPost then
        match p.queryExists "#btnPost" s with
        | (.error e, s1) => (.error e, s1)
        | (.ok true, s1) => (.ok (), (catchTo (p.clickButtonScript "#btnPost" s1) ()).2)
        | (.ok false, s1) =>
          match safeClick p "#btnSave" s1 with
          | (.error e, s2) => (.error e, s2)
          | (.ok _, s2) => (.ok (), s2)
      else
        match safeClick p "#btnSave" s with
        | (.error e, s1) => (.error e, s1)
        | (.ok true, s1) => (.ok (), s1)
        | (.ok false, s1) => (.ok (), (catchTo (p.submitFormScript s1) ()).2)
    match step1 with
    | (.error e, s1) => (.error e, s1)
    | (.ok _, s1) =>
      let s2 := p.waitForTimeout 1000 s1
      match opts.redirectUrlAfterSubmit with
      | none => (.ok (), s2)
      | some url =>
        let s3 := (catchTo (p.goto url s2) ()).2
        (.ok (), p.waitForTimeout 600 s3)

/-- The steps between the field loop and rowResult.ok = true: TotalAmount
derivation, sub-details save, optional submit. -/
def rowExtras (p : PPage σ) (opts : FillOpts) (row : List (String × String)) (s : σ) :
    Except String Unit × σ :=
  let disbA := lookupJS row "MoreDisbursementDetaos_DisbursmentAmount"
  let disbB := lookupJS row "moredisbursementdetaos_disbursmentamount"
  let maybeDisb := if truthyOpt disbA then disbA else disbB
  let tot := truthyOpt (lookupJS row "TotalAmount") || truthyOpt (lookupJS row "totalamount")
  let s1 := if truthyOpt maybeDisb && !tot then (setInputValue p "#TotalAmount" maybeDisb s).2 else s
  match moreDisbStep p (row.any (fun kv => kv.1.startsWith "MoreDisbursementDetaos")) s1 with
  | (.error e, s2) => (.error e, s2)
  | (.ok _, s2) => submitStep p opts s2

/-- Processing of one record, with the try/catch around the whole row: any
rejection inside the try captures the message into rowResult.exception and
makes ok false; otherwise ok is true. -/
def fillRow (p : PPage σ) (m : Obj) (opts : FillOpts) (row : List (String × String))
    (i : Nat) (s : σ) : RowResult × σ :=
  let s0 := p.waitForTimeout 200 s
  match foldFields p m row s0 ⟨[], []⟩ with
  | (.error e, s1, acc) =>
    ({ rowIndex := i, filled := acc.filled, errors := acc.errors,
       ok := false, exception := some e }, s1)
  | (.ok _, s1, acc) =>
    match rowExtras p opts row s1 with
    | (.error e, s2) =>
      ({ rowIndex := i, filled := acc.filled, errors := acc.errors,
         ok := false, exception := some e }, s2)
    | (.ok _, s2) =>
      ({ rowIndex := i, filled := acc.filled, errors := acc.errors,
         ok := true, exception := none }, s2)

/-- The row loop: one Row Result per row, pushed in input order. -/
def rowsLoop (p : PPage σ) (m : Obj) (opts : FillOpts) :
    List (List (String × String)) → Nat → σ → List RowResult × σ
  | [], _, s => ([], s)
  | row :: rest, i, s =>
    match fillRow p m opts row i s with
    | (res, s1) =>
      let s2 := p.waitForTimeout 500 s1
      match rowsLoop p m opts rest (i + 1) s2 with
      | (results, s3) => (res :: results, s3)

/-- The value returned by fillLoanDisbursementFromExcel: either the no-rows
object (ok false plus a message) or the ok true object with the row count
and the Row Results. -/
inductive FillOutcome where
  | noRows (message : String)
  | done (rows : Nat) (results : List RowResult)
deriving Repr, DecidableEq

/-- Embedding of fillLoanDisbursementFromExcel: a missing file throws, a
parser throw propagates, an empty row list returns the ok false object, and
otherwise every row is processed. -/
def fillLoanDisbursementFromExcel (p : PPage σ) (fileExists : Bool)
    (parse : Except String (List (List (String × String)))) (opts : FillOpts) (s : σ) :
    PRes σ FillOutcome :=
  if !fileExists then (.error "Excel file not found", s)
  else
    match parse with
    | .error e => (.error e, s)
    | .ok rows =>
      if rows.isEmpty then (.ok (.noRows "No rows in excel"), s)
      else
        match rowsLoop p (opts.fieldMap.getD DEFAULT_FIELD_MAP) opts rows 0 s with
        | (results, s1) => (.ok (.done rows.length results), s1)

/-- A deterministic concrete page on which every primitive succeeds, no
element is found by the tag probes, and no option list matches. -/
def trivPage : PPage Unit where
  waitForSelector := fun _ _ s => (.ok (), s)
  scrollIntoView := fun _ s => (.ok (), s)
  click := fun _ s => (.ok (), s)
  setValueScript := fun _ _ s => (.ok (), s)
  focusSel := fun _ s => (.ok (), s)
  selectByValue := fun _ _ s => (.ok [], s)
  dispatchChange := fun _ s => (.ok (), s)
  selectByTextScript := fun _ _ s => (.ok false, s)
  setCheckboxScript := fun _ _ s => (.ok (), s)
  tagNameOf := fun _ s => (.ok none, s)
  typeOf := fun _ s => (.ok none, s)
  queryExists := fun _ s => (.ok false, s)
  clickButtonScript := fun _ s => (.ok (), s)
  goto := fun _ s => (.ok (), s)
  submitFormScript := fun s => (.ok (), s)
  waitForTimeout := fun _ s => s

lemma mapHeaderToId_isSome (m : Obj) (h : String) (hne : h ≠ "") :
    (mapHeaderToId m h).isSome = true := by
  have hb : (h == "") = false := by simp [hne]
  simp only [mapHeaderToId, hb, Bool.false_eq_true, if_false]
  cases lookupJS m h with
  | none => simp
  | some v => by_cases hv : (v == "") = true <;> simp [hv]

lemma mapHeaderToId_eq_none (m : Obj) (h : String) (hm : mapHeaderToId m h = none) :
    h = "" := by
  by_contra hne
  have := mapHeaderToId_isSome m h hne
  rw [hm] at this
  simp at this

/-- Every branch of the by-id-then-by-name input handling either propagates
a rejection with the accumulator untouched, or records exactly one filled
entry or one could-not-set-value error. -/
lemma inputDefault_shape (p : PPage σ) (fieldId v : String) (s : σ) (acc : Acc) :
    (∃ e s1, inputDefault p fieldId v s acc = (.error e, s1, acc)) ∨
    (∃ f s1, inputDefault p fieldId v s acc =
      (.ok (), s1, { acc with filled := acc.filled ++ [f] })) ∨
    (∃ s1, inputDefault p fieldId v s acc =
      (.ok (), s1, { acc with errors := acc.errors ++ [ErrMsg.couldNotSetValue fieldId] })) := by
  rcases h1 : setInputValue p ("#" ++ fieldId) (some v) s with ⟨r1, s2⟩
  cases r1 with
  | error e => exact Or.inl ⟨e, s2, by simp [inputDefault, h1]⟩
  | ok b1 =>
    cases b1 with
    | true =>
      exact Or.inr (Or.inl ⟨fieldId, p.waitForTimeout 120 s2, by simp [inputDefault, h1]⟩)
    | false =>
      rcases h2 : setInputValue p ("[name=\"" ++ fieldId ++ "\"]") (some v) s2 with ⟨r2, s3⟩
      cases r2 with
      | error e => exact Or.inl ⟨e, s3, by simp [inputDefault, h1, h2]⟩
      | ok b2 =>
        cases b2 with
        | true =>
          exact Or.inr (Or.inl ⟨fieldId ++ "(byName)", p.waitForTimeout 120 s3,
            by simp [inputDefault, h1, h2]⟩)
        | false =>
          exact Or.inr (Or.inr ⟨p.waitForTimeout 120 s3, by simp [inputDefault, h1, h2]⟩)

/-- Any field iteration either skips an empty value, propagates a rejection
with the accumulator untouched, or appends exactly one filled entry or one
error; a no-mapping error arises only from an empty column header. -/
lemma processField_shape (p : PPage σ) (m : Obj) (h v : String) (s : σ) (acc : Acc) :
    (v = "" ∧ processField p m h v s acc = (.ok (), s, acc)) ∨
    (v ≠ "" ∧
      ((∃ e s1, processField p m h v s acc = (.error e, s1, acc)) ∨
       (∃ f s1, processField p m h v s acc =
          (.ok (), s1, { acc with filled := acc.filled ++ [f] })) ∨
       (∃ em s1, processField p m h v s acc =
          (.ok (), s1, { acc with errors := acc.errors ++ [em] }) ∧
          (∀ hdr, em = ErrMsg.noMapping hdr → h = "")))) := by
  by_cases hv : v = ""
  · exact Or.inl ⟨hv, by simp [processField, hv]⟩
  · refine Or.inr ⟨hv, ?_⟩
    have hv2 : (v == "") = false := by simp [hv]
    cases hm : mapHeaderToId m h with
    | none =>
      refine Or.inr (Or.inr ⟨ErrMsg.noMapping h, s, by simp [processField, hv2, hm], ?_⟩)
      intro hdr _
      exact mapHeaderToId_eq_none m h hm
    | some fieldId =>
      rcases hct : catchTo (p.tagNameOf ("#" ++ fieldId) s) none with ⟨et, s1⟩
      by_cases hsel : (et == some "select") = true
      · rcases hso : selectOption p ("#" ++ fieldId) (some v) s1 with ⟨r, s2⟩
        cases r with
        | error e =>
          exact Or.inl ⟨e, s2, by simp [processField, hv2, hm, hct, hsel, hso]⟩
        | ok b =>
          cases b with
          | true =>
            exact Or.inr (Or.inl ⟨fieldId, p.waitForTimeout 120 s2,
              by simp [processField, hv2, hm, hct, hsel, hso]⟩)
          | false =>
            refine Or.inr (Or.inr ⟨ErrMsg.couldNotSelect fieldId v, p.waitForTimeout 120 s2,
              by simp [processField, hv2, hm, hct, hsel, hso], ?_⟩)
            intro hdr he
            simp at he
      · by_cases hit : (et == some "input" || et == some "textarea" || et == some "null") = true
        · by_cases hcb : checkboxish fieldId = true
          · rcases hty : catchTo (p.typeOf ("#" ++ fieldId) s1) none with ⟨tag, s2⟩
            by_cases htag : (tag == some "checkbox") = true
            · rcases hsc : setCheckbox p ("#" ++ fieldId) v s2 with ⟨r, s3⟩
              cases r with
              | error e =>
                exact Or.inl ⟨e, s3,
                  by simp [processField, hv2, hm, hct, hsel, hit, hcb, hty, htag, hsc]⟩
              | ok b =>
                cases b with
                | true =>
                  exact Or.inr (Or.inl ⟨fieldId, s3,
                    by simp [processField, hv2, hm, hct, hsel, hit, hcb, hty, htag, hsc]⟩)
                | false =>
                  refine Or.inr (Or.inr ⟨ErrMsg.couldNotSetCheckbox fieldId, s3,
                    by simp [processField, hv2, hm, hct, hsel, hit, hcb, hty, htag, hsc], ?_⟩)
                  intro hdr he
                  simp at he
            · have hred : processField p m h v s acc = inputDefault p fieldId v s2 acc := by
                simp [processField, hv2, hm, hct, hsel, hit, hcb, hty, htag]
              rw [hred]
              rcases inputDefault_shape p fieldId v s2 acc with ⟨e, s3, he⟩ | ⟨f, s3, hf⟩ | ⟨s3, herr⟩
              · exact Or.inl ⟨e, s3, he⟩
              · exact Or.inr (Or.inl ⟨f, s3, hf⟩)
              · refine Or.inr (Or.inr ⟨ErrMsg.couldNotSetValue fieldId, s3, herr, ?_⟩)
                intro hdr he
                simp at he
          · have hred : processField p m h v s acc = inputDefault p fieldId v s1 acc := by
              simp [processField, hv2, hm, hct, hsel, hit, hcb]
            rw [hred]
            rcases inputDefault_shape p fieldId v s1 acc with ⟨e, s3, he⟩ | ⟨f, s3, hf⟩ | ⟨s3, herr⟩
            · exact Or.inl ⟨e, s3, he⟩
            · exact Or.inr (Or.inl ⟨f, s3, hf⟩)
            · refine Or.inr (Or.inr ⟨ErrMsg.couldNotSetValue fieldId, s3, herr, ?_⟩)
              intro hdr he
              simp at he
        · rcases hsi : setInputValue p ("#" ++ fieldId) (some v) s1 with ⟨r, s2⟩
          cases r with
          | error e =>
            exact Or.inl ⟨e, s2, by simp [processField, hv2, hm, hct, hsel, hit, hsi]⟩
          | ok b =>
            cases b with
            | true =>
              exact Or.inr (Or.inl ⟨fieldId, p.waitForTimeout 120 s2,
                by simp [processField, hv2, hm, hct, hsel, hit, hsi]⟩)
            | false =>
              refine Or.inr (Or.inr ⟨ErrMsg.unknownElement fieldId, p.waitForTimeout 120 s2,
                by simp [processField, hv2, hm, hct, hsel, hit, hsi], ?_⟩)
              intro hdr he
              simp at he

lemma processField_count (p : PPage σ) (m : Obj) (h v : String) (s : σ) (acc : Acc)
    (hok : (processField p m h v s acc).1 = .ok ()) :
    (processField p m h v s acc).2.2.filled.length +
      (processField p m h v s acc).2.2.errors.length
      = acc.filled.length + acc.errors.length + (if v == "" then 0 else 1) := by
  rcases processField_shape p m h v s acc with ⟨hv, heq⟩ | ⟨hv, hcase⟩
  · rw [heq]
    simp [hv]
  · have hv2 : (v == "") = false := by simp [hv]
    rcases hcase with ⟨e, s1, heq⟩ | ⟨f, s1, heq⟩ | ⟨em, s1, heq, _⟩
    · rw [heq] at hok
      simp at hok
    · rw [heq]
      simp [hv2]
      omega
    · rw [heq]
      simp [hv2]
      omega

lemma processField_noMapping (p : PPage σ) (m : Obj) (h v : String) (s : σ) (acc : Acc)
    (hdr : String) (hmem : ErrMsg.noMapping hdr ∈ (processField p m h v s acc).2.2.errors) :
    ErrMsg.noMapping hdr ∈ acc.errors ∨ h = "" := by
  rcases processField_shape p m h v s acc with ⟨_, heq⟩ | ⟨_, hcase⟩
  · rw [heq] at hmem
    exact Or.inl hmem
  · rcases hcase with ⟨e, s1, heq⟩ | ⟨f, s1, heq⟩ | ⟨em, s1, heq, himp⟩
    · rw [heq] at hmem
      exact Or.inl hmem
    · rw [heq] at hmem
      exact Or.inl hmem
    · rw [heq] at hmem
      simp only at hmem
      rcases List.mem_append.mp hmem with hin | hone
      · exact Or.inl hin
      · have : em = ErrMsg.noMapping hdr := by
          cases List.mem_singleton.mp hone
          rfl
        exact Or.inr (himp hdr this)

lemma foldFields_count (p : PPage σ) (m : Obj) :
    ∀ (fields : List (String × String)) (s : σ) (acc : Acc),
      (foldFields p m fields s acc).1 = .ok () →
      (foldFields p m fields s acc).2.2.filled.length +
        (foldFields p m fields s acc).2.2.errors.length
        = acc.filled.length + acc.errors.length +
          (fields.filter (fun kv => !(kv.2 == ""))).length := by
  intro fields
  induction fields with
  | nil =>
    intro s acc _
    simp [foldFields]
  | cons kv rest ih =>
    intro s acc hok
    rcases hpf : processField p m kv.1 kv.2 s acc with ⟨r1, s1, acc1⟩
    cases r1 with
    | error e =>
      have : foldFields p m (kv :: rest) s acc = (.error e, s1, acc1) := by
        simp [foldFields, hpf]
      rw [this] at hok
      simp at hok
    | ok u =>
      cases u
      have heq : foldFields p m (kv :: rest) s acc = foldFields p m rest s1 acc1 := by
        simp [foldFields, hpf]
      rw [heq] at hok ⊢
      have hcount := processField_count p m kv.1 kv.2 s acc (by rw [hpf])
      rw [hpf] at hcount
      rw [ih s1 acc1 hok]
      by_cases hkv : (kv.2 == "") = true
      · simp [hkv] at hcount
        simp [List.filter_cons, hkv]
        omega
      · simp [hkv] at hcount
        simp [List.filter_cons, hkv]
        omega

lemma foldFields_noMapping (p : PPage σ) (m : Obj) :
    ∀ (fields : List (String × String)) (s : σ) (acc : Acc) (hdr : String),
      ErrMsg.noMapping hdr ∈ (foldFields p m fields s acc).2.2.errors →
      ErrMsg.noMapping hdr ∈ acc.errors ∨ ∃ kv, kv ∈ fields ∧ kv.1 = "" := by
  intro fields
  induction fields with
  | nil =>
    intro s acc hdr hmem
    simp only [foldFields] at hmem
    exact Or.inl hmem
  | cons kv rest ih =>
    intro s acc hdr hmem
    rcases hpf : processField p m kv.1 kv.2 s acc with ⟨r1, s1, acc1⟩
    cases r1 with
    | error e =>
      have heq : foldFields p m (kv :: rest) s acc = (.error e, s1, acc1) := by
        simp [foldFields, hpf]
      rw [heq] at hmem
      simp only at hmem
      rcases processField_noMapping p m kv.1 kv.2 s acc hdr (by rw [hpf]; exact hmem) with hin | hemp
      · exact Or.inl hin
      · exact Or.inr ⟨kv, List.mem_cons_self kv rest, hemp⟩
    | ok u =>
      cases u
      have heq : foldFields p m (kv :: rest) s acc = foldFields p m rest s1 acc1 := by
        simp [foldFields, hpf]
      rw [heq] at hmem
      rcases ih s1 acc1 hdr hmem with hin1 | hex
      · rcases processField_noMapping p m kv.1 kv.2 s acc hdr (by rw [hpf]; exact hin1) with hin | hemp
        · exact Or.inl hin
        · exact Or.inr ⟨kv, List.mem_cons_self kv rest, hemp⟩
      · rcases hex with ⟨kv2, hkv2, hkv2e⟩
        exact Or.inr ⟨kv2, List.mem_cons_of_mem _ hkv2, hkv2e⟩

/-- Structural facts about one finalized Row Result: the stored rowIndex,
the accumulators it carries, the exception-flag correspondence, and the
success of the field loop when no exception was captured. -/
lemma fillRow_fields (p : PPage σ) (m : Obj) (opts : FillOpts)
    (row : List (String × String)) (i : Nat) (s : σ) :
    (fillRow p m opts row i s).1.rowIndex = i ∧
    (fillRow p m opts row i s).1.filled
      = (foldFields p m row (p.waitForTimeout 200 s) ⟨[], []⟩).2.2.filled ∧
    (fillRow p m opts row i s).1.errors
      = (foldFields p m row (p.waitForTimeout 200 s) ⟨[], []⟩).2.2.errors ∧
    ((fillRow p m opts row i s).1.ok = false ↔
      (fillRow p m opts row i s).1.exception.isSome = true) ∧
    ((fillRow p m opts row i s).1.exception = none →
      (fillRow p m opts row i s).1.ok = true ∧
      (foldFields p m row (p.waitForTimeout 200 s) ⟨[], []⟩).1 = .ok ()) := by
  rcases hff : foldFields p m row (p.waitForTimeout 200 s) ⟨[], []⟩ with ⟨r1, s1, acc⟩
  cases r1 with
  | error e =>
    simp [fillRow, hff]
  | ok u =>
    cases u
    rcases hre : rowExtras p opts row s1 with ⟨r2, s2⟩
    cases r2 with
    | error e => simp [fillRow, hff, hre]
    | ok u2 =>
      cases u2
      simp [fillRow, hff, hre]

/-- C1: for every page behavior, record and options, the Row Result success
flag is false exactly when an exception message was captured; and when no
exception was captured, every non-empty field of the record contributed
exactly one entry to filled or errors (processing reached every field). -/
theorem rowResult_ok_iff_no_exception :
    ∀ (σ : Type) (p : PPage σ) (m : Obj) (opts : FillOpts)
      (row : List (String × String)) (i : Nat) (s : σ),
      ((fillRow p m opts row i s).1.ok = false ↔
        (fillRow p m opts row i s).1.exception.isSome = true) ∧
      ((fillRow p m opts row i s).1.exception = none →
        (fillRow p m opts row i s).1.filled.length +
          (fillRow p m opts row i s).1.errors.length
          = (row.filter (fun kv => !(kv.2 == ""))).length) := by
  intro σ p m opts row i s
  obtain ⟨-, hfil, herr, hiff, hnone⟩ := fillRow_fields p m opts row i s
  refine ⟨hiff, fun hexc => ?_⟩
  have hok := (hnone hexc).2
  have := foldFields_count p m row (p.waitForTimeout 200 s) ⟨[], []⟩ hok
  rw [hfil, herr, this]
  simp

set_option maxRecDepth 8000 in
/-- Witness for C1 at a concrete page and record: no exception is captured
and the single non-empty field accounts for exactly one outcome entry. -/
theorem rowResult_ok_iff_no_exception_w :
    (fillRow trivPage [] defaultOpts [("UserName", "alice")] 0 ()).1.exception = none ∧
    (fillRow trivPage [] defaultOpts [("UserName", "alice")] 0 ()).1.filled.length +
      (fillRow trivPage [] defaultOpts [("UserName", "alice")] 0 ()).1.errors.length = 1 :=
  ⟨by decide,
   ((rowResult_ok_iff_no_exception Unit trivPage [] defaultOpts
      [("UserName", "alice")] 0 ()).2 (by decide)).trans (by decide)⟩

/-- C9: a non-empty header always maps to a field id, and accordingly no
Row Result whose record has only non-empty keys ever carries the
no-mapping error. -/
theorem noMapping_unreachable :
    (∀ (m : Obj) (h : String), h ≠ "" → (mapHeaderToId m h).isSome = true) ∧
    (∀ (σ : Type) (p : PPage σ) (m : Obj) (opts : FillOpts)
      (row : List (String × String)) (i : Nat) (s : σ),
      (∀ kv ∈ row, kv.1 ≠ "") →
      ∀ hdr, ErrMsg.noMapping hdr ∉ (fillRow p m opts row i s).1.errors) := by
  refine ⟨mapHeaderToId_isSome, ?_⟩
  intro σ p m opts row i s hkeys hdr hmem
  obtain ⟨-, -, herr, -, -⟩ := fillRow_fields p m opts row i s
  rw [herr] at hmem
  rcases foldFields_noMapping p m row (p.waitForTimeout 200 s) ⟨[], []⟩ hdr hmem with hin | hex
  · simp at hin
  · rcases hex with ⟨kv, hkv, hkve⟩
    exact hkeys kv hkv hkve

/-- Witness for C9: a concrete header maps to an id, and a concrete record
with non-empty keys produces no no-mapping error. -/
theorem noMapping_unreachable_w :
    (mapHeaderToId [] "Narration").isSome = true ∧
    ErrMsg.noMapping "x" ∉ (fillRow trivPage [] defaultOpts [("Product", "p1")] 0 ()).1.errors :=
  ⟨noMapping_unreachable.1 [] "Narration" (by decide),
   noMapping_unreachable.2 Unit trivPage [] defaultOpts [("Product", "p1")] 0 ()
     (by decide) "x"⟩

lemma fillRow_rowIndex (p : PPage σ) (m : Obj) (opts : FillOpts)
    (row : List (String × String)) (i : Nat) (s : σ) :
    (fillRow p m opts row i s).1.rowIndex = i :=
  (fillRow_fields p m opts row i s).1

lemma rowsLoop_map (p : PPage σ) (m : Obj) (opts : FillOpts) :
    ∀ (rows : List (List (String × String))) (i : Nat) (s : σ),
      (rowsLoop p m opts rows i s).1.map RowResult.rowIndex = List.range' i rows.length := by
  intro rows
  induction rows with
  | nil =>
    intro i s
    simp [rowsLoop]
  | cons row rest ih =>
    intro i s
    rcases hfr : fillRow p m opts row i s with ⟨res, s1⟩
    rcases hrl : rowsLoop p m opts rest (i + 1) (p.waitForTimeout 500 s1) with ⟨results, s3⟩
    have heq : rowsLoop p m opts (row :: rest) i s = (res :: results, s3) := by
      simp [rowsLoop, hfr, hrl]
    have hidx : res.rowIndex = i := by
      have := fillRow_rowIndex p m opts row i s
      rw [hfr] at this
      exact this
    have hih := ih (i + 1) (p.waitForTimeout 500 s1)
    rw [hrl] at hih
    rw [heq]
    simp only [List.map_cons, hidx, hih, List.length_cons]
    rw [List.range'_succ i rest.length 1]

lemma rowsLoop_length (p : PPage σ) (m : Obj) (opts : FillOpts)
    (rows : List (List (String × String))) (i : Nat) (s : σ) :
    (rowsLoop p m opts rows i s).1.length = rows.length := by
  have := congrArg List.length (rowsLoop_map p m opts rows i s)
  simpa using this

lemma get_rowIndex_of_map_range (results : List RowResult) (n : Nat)
    (hmap : results.map RowResult.rowIndex = List.range' 0 n) :
    ∀ j (hj : j < results.length), (results.get ⟨j, hj⟩).rowIndex = j := by
  intro j hj
  have hj2 : j < (results.map RowResult.rowIndex).length := by simpa using hj
  have h1 : (results.map RowResult.rowIndex).get ⟨j, hj2⟩
      = (results.get ⟨j, hj⟩).rowIndex := by simp
  have h2 := List.get_of_eq hmap ⟨j, hj2⟩
  rw [← h1, h2]
  simp [List.getElem_range']

/-- C10: for an existing file whose parse yields rows, the function returns
the ok object carrying the row count and one Row Result per row in input
order with rowIndex i at position i; an empty parse yields the ok false
no-rows object without throwing. -/
theorem fillLoan_result_shape :
    ∀ (σ : Type) (p : PPage σ) (opts : FillOpts) (s : σ)
      (rows : List (List (String × String))),
      (rows ≠ [] →
        ∃ results s1,
          fillLoanDisbursementFromExcel p true (.ok rows) opts s
            = (.ok (.done rows.length results), s1) ∧
          results.length = rows.length ∧
          ∀ j (hj : j < results.length), (results.get ⟨j, hj⟩).rowIndex = j) ∧
      (rows = [] →
        fillLoanDisbursementFromExcel p true (.ok rows) opts s
          = (.ok (.noRows "No rows in excel"), s)) := by
  intro σ p opts s rows
  constructor
  · intro hne
    have hemp : rows.isEmpty = false := by
      simpa [List.isEmpty_iff] using hne
    rcases hrl : rowsLoop p (opts.fieldMap.getD DEFAULT_FIELD_MAP) opts rows 0 s
      with ⟨results, s1⟩
    have hlen : results.length = rows.length := by
      have := rowsLoop_length p (opts.fieldMap.getD DEFAULT_FIELD_MAP) opts rows 0 s
      rw [hrl] at this
      exact this
    have hmap : results.map RowResult.rowIndex = List.range' 0 rows.length := by
      have := rowsLoop_map p (opts.fieldMap.getD DEFAULT_FIELD_MAP) opts rows 0 s
      rw [hrl] at this
      exact this
    exact ⟨results, s1, by simp [fillLoanDisbursementFromExcel, hemp, hrl], hlen,
      get_rowIndex_of_map_range results rows.length hmap⟩
  · intro hempty
    subst hempty
    simp [fillLoanDisbursementFromExcel]

/-- Witness for C10 on a concrete page: a one-row parse yields the ok object
with one Row Result at rowIndex zero, an empty parse yields the no-rows
object. -/
theorem fillLoan_result_shape_w :
    (∃ results s1,
      fillLoanDisbursementFromExcel trivPage true (.ok [[("UserName", "alice")]])
          defaultOpts () = (.ok (.done 1 results), s1) ∧
        results.length = 1 ∧
        ∀ j (hj : j < results.length), (results.get ⟨j, hj⟩).rowIndex = j) ∧
    fillLoanDisbursementFromExcel trivPage true (.ok []) defaultOpts ()
      = (.ok (.noRows "No rows in excel"), ()) :=
  ⟨(fillLoan_result_shape Unit trivPage defaultOpts () [[("UserName", "alice")]]).1
      (by decide),
   (fillLoan_result_shape Unit trivPage defaultOpts () []).2 rfl⟩

end Loan

/-- The try block of a safe helper always resolves. -/
lemma tryBool_ok (body : σ → PRes σ Bool) (s : σ) :
    ∃ b s1, tryBool body s = (.ok b, s1) := by
  rcases hb : body s with ⟨r, s1⟩
  cases r with
  | ok b => exact ⟨b, s1, by simp [tryBool, hb]⟩
  | error e => exact ⟨false, s1, by simp [tryBool, hb]⟩

namespace Driver

/-! ## Driver (automation.customized.js)

Playwright page oracle for the driver-level safe helpers; inner promise
rejections are swallowed by .catch inside the try bodies. -/

structure DPage (σ : Type) where
  waitForSelector : String → Nat → σ → PRes σ Unit
  click : String → Nat → σ → PRes σ Unit
  fill : String → String → σ → PRes σ Unit
  selectOptionByValue : String → String → σ → PRes σ Unit
  selectOptionByLabel : String → String → σ → PRes σ Unit

/-- Embedding of the driver safeClick: falsy selector short-circuits to
false; wait and click rejections are each caught to null inside the try. -/
def safeClick (p : DPage σ) (sel : String) (s : σ) : PRes σ Bool :=
  if sel == "" then (.ok false, s)
  else
    tryBool (fun s0 =>
      let s1 := (catchTo (p.waitForSelector sel 4000 s0) ()).2
      let s2 := (catchTo (p.click sel 5000 s1) ()).2
      (.ok true, s2)) s

/-- Embedding of the driver safeFill: falsy selector or nullish value
short-circuits to false; wait and fill rejections are each caught to null. -/
def safeFill (p : DPage σ) (sel : String) (v : Option String) (s : σ) : PRes σ Bool :=
  if sel == "" then (.ok false, s)
  else
    match v with
    | none => (.ok false, s)
    | some str =>
      tryBool (fun s0 =>
        let s1 := (catchTo (p.waitForSelector sel 4000 s0) ()).2
        let s2 := (catchTo (p.fill sel str s1) ()).2
        (.ok true, s2)) s

/-- Embedding of the driver safeSelect: select by value; on rejection select
by label, its own rejection caught to null. -/
def safeSelect (p : DPage σ) (sel : String) (v : Option String) (s : σ) : PRes σ Bool :=
  if sel == "" then (.ok false, s)
  else
    match v with
    | none => (.ok false, s)
    | some str =>
      tryBool (fun s0 =>
        let s1 := (catchTo (p.waitForSelector sel 4000 s0) ()).2
        let s2 :=
          match p.selectOptionByValue sel str s1 with
          | (.ok _, sa) => sa
          | (.error _, sa) => (catchTo (p.selectOptionByLabel sel str sa) ()).2
        (.ok true, s2)) s

/-- A concrete driver page on which every primitive rejects; its state
counts successful fill mutations, which therefore stays at zero. -/
def fillFailPage : DPage Nat where
  waitForSelector := fun _ _ n => (.error "timeout waiting for selector", n)
  click := fun _ _ n => (.error "click failed", n)
  fill := fun _ _ n => (.error "fill failed: element not found", n)
  selectOptionByValue := fun _ _ n => (.error "no options", n)
  selectOptionByLabel := fun _ _ n => (.error "no options", n)

/-- The body of the puppeteer safeClick succeeds with true exactly when its
three primitive steps succeed in sequence. -/
lemma loanSafeClick_true_iff (p : Loan.PPage σ) (sel : String) (s s1 : σ) :
    Loan.safeClick p sel s = (.ok true, s1) ↔
      ∃ sa sb, p.waitForSelector sel 5000 s = (.ok (), sa) ∧
        p.scrollIntoView sel sa = (.ok (), sb) ∧ p.click sel sb = (.ok (), s1) := by
  constructor
  · intro h
    rcases hw : p.waitForSelector sel 5000 s with ⟨r1, sa⟩
    cases r1 with
    | error e => simp [Loan.safeClick, tryBool, Loan.safeClickBody, hw] at h
    | ok u =>
      cases u
      rcases hsc : p.scrollIntoView sel sa with ⟨r2, sb⟩
      cases r2 with
      | error e => simp [Loan.safeClick, tryBool, Loan.safeClickBody, hw, hsc] at h
      | ok u2 =>
        cases u2
        rcases hcl : p.click sel sb with ⟨r3, sc⟩
        cases r3 with
        | error e =>
          simp [Loan.safeClick, tryBool, Loan.safeClickBody, hw, hsc, hcl] at h
        | ok u3 =>
          cases u3
          have hs : sc = s1 := by
            simpa [Loan.safeClick, tryBool, Loan.safeClickBody, hw, hsc, hcl] using h
          exact ⟨sa, sb, rfl, hsc, by rw [← hs]; exact hcl⟩
  · rintro ⟨sa, sb, hw, hsc, hcl⟩
    simp [Loan.safeClick, tryBool, Loan.safeClickBody, hw, hsc, hcl]

/-- The puppeteer setInputValue resolves true (for a non-null value) exactly
when the wait and the value-setting script succeed; the trailing focus call
has its rejection caught and the pause cannot reject. -/
lemma setInputValue_true_iff (p : Loan.PPage σ) (sel str : String) (s : σ) :
    (Loan.setInputValue p sel (some str) s).1 = .ok true ↔
      ∃ sa sb, p.waitForSelector sel 4000 s = (.ok (), sa) ∧
        p.setValueScript sel str sa = (.ok (), sb) := by
  constructor
  · intro h
    rcases hw : p.waitForSelector sel 4000 s with ⟨r1, sa⟩
    cases r1 with
    | error e => simp [Loan.setInputValue, tryBool, Loan.setInputValueBody, hw] at h
    | ok u =>
      cases u
      rcases hv : p.setValueScript sel str sa with ⟨r2, sb⟩
      cases r2 with
      | error e =>
        simp [Loan.setInputValue, tryBool, Loan.setInputValueBody, hw, hv] at h
      | ok u2 =>
        cases u2
        exact ⟨sa, sb, rfl, hv⟩
  · rintro ⟨sa, sb, hw, hv⟩
    simp [Loan.setInputValue, tryBool, Loan.setInputValueBody, hw, hv]

/-- The puppeteer selectOption resolves true (for a non-null value) exactly
when, after a successful wait, either the caught select-by-value call
selected something and the change dispatch succeeds, or it selected nothing
and the select-by-visible-text script returns true. -/
lemma selectOption_true_iff (p : Loan.PPage σ) (sel str : String) (s : σ) :
    (Loan.selectOption p sel (some str) s).1 = .ok true ↔
      ∃ sa selected sb, p.waitForSelector sel 4000 s = (.ok (), sa) ∧
        catchTo (p.selectByValue sel str sa) [] = (selected, sb) ∧
        (selected = [] →
          ∃ sc, p.selectByTextScript sel str sb = (.ok true, sc)) ∧
        (selected ≠ [] → ∃ sc, p.dispatchChange sel sb = (.ok (), sc)) := by
  constructor
  · intro h
    rcases hw : p.waitForSelector sel 4000 s with ⟨r1, sa⟩
    cases r1 with
    | error e => simp [Loan.selectOption, tryBool, Loan.selectOptionBody, hw] at h
    | ok u =>
      cases u
      rcases hcv : catchTo (p.selectByValue sel str sa) [] with ⟨selected, sb⟩
      by_cases hemp : selected.isEmpty = true
      · have hsel : selected = [] := by simpa using hemp
        rcases ht : p.selectByTextScript sel str sb with ⟨r2, sc⟩
        cases r2 with
        | error e =>
          simp [Loan.selectOption, tryBool, Loan.selectOptionBody, hw, hcv, hemp, ht] at h
        | ok b =>
          cases b with
          | false =>
            simp [Loan.selectOption, tryBool, Loan.selectOptionBody, hw, hcv, hemp, ht] at h
          | true =>
            exact ⟨sa, selected, sb, rfl, hcv, fun _ => ⟨sc, ht⟩,
              fun hne => absurd hsel hne⟩
      · have hne : selected ≠ [] := by
          intro hc
          exact hemp (by simp [hc])
        rcases hd : p.dispatchChange sel sb with ⟨r2, sc⟩
        cases r2 with
        | error e =>
          simp [Loan.selectOption, tryBool, Loan.selectOptionBody, hw, hcv, hemp, hd] at h
        | ok u2 =>
          cases u2
          exact ⟨sa, selected, sb, rfl, hcv, fun hc => absurd hc hne,
            fun _ => ⟨sc, hd⟩⟩
  · rintro ⟨sa, selected, sb, hw, hcv, himp1, himp2⟩
    by_cases hemp : selected.isEmpty = true
    · obtain ⟨sc, ht⟩ := himp1 (by simpa using hemp)
      simp [Loan.selectOption, tryBool, Loan.selectOptionBody, hw, hcv, hemp, ht]
    · have hne : selected ≠ [] := by
        intro hc
        exact hemp (by simp [hc])
      obtain ⟨sc, hd⟩ := himp2 hne
      simp [Loan.selectOption, tryBool, Loan.selectOptionBody, hw, hcv, hemp, hd]

/-- The puppeteer setCheckbox resolves true exactly when the wait and the
checkbox script succeed. -/
lemma setCheckbox_true_iff (p : Loan.PPage σ) (sel v : String) (s : σ) :
    (Loan.setCheckbox p sel v s).1 = .ok true ↔
      ∃ sa sb, p.waitForSelector sel 3000 s = (.ok (), sa) ∧
        p.setCheckboxScript sel v sa = (.ok (), sb) := by
  constructor
  · intro h
    rcases hw : p.waitForSelector sel 3000 s with ⟨r1, sa⟩
    cases r1 with
    | error e => simp [Loan.setCheckbox, tryBool, Loan.setCheckboxBody, hw] at h
    | ok u =>
      cases u
      rcases hc : p.setCheckboxScript sel v sa with ⟨r2, sb⟩
      cases r2 with
      | error e => simp [Loan.setCheckbox, tryBool, Loan.setCheckboxBody, hw, hc] at h
      | ok u2 =>
        cases u2
        exact ⟨sa, sb, rfl, hc⟩
  · rintro ⟨sa, sb, hw, hc⟩
    simp [Loan.setCheckbox, tryBool, Loan.setCheckboxBody, hw, hc]

/-- C2 as amended: no Safe DOM Action of either module ever rejects, each
always resolves to a boolean; each of the four loan-module helpers reports
whether its wait and DOM steps succeeded (with false on a nullish value
before the try block), but the driver-level helpers resolve true whenever
their arguments are present, regardless of any inner failure. -/
theorem safeActions_never_throw :
    (∀ (σ : Type) (p : Loan.PPage σ) (sel : String) (s : σ),
      ∃ b s1, Loan.safeClick p sel s = (.ok b, s1)) ∧
    (∀ (σ : Type) (p : Loan.PPage σ) (sel : String) (v : Option String) (s : σ),
      ∃ b s1, Loan.setInputValue p sel v s = (.ok b, s1)) ∧
    (∀ (σ : Type) (p : Loan.PPage σ) (sel : String) (v : Option String) (s : σ),
      ∃ b s1, Loan.selectOption p sel v s = (.ok b, s1)) ∧
    (∀ (σ : Type) (p : Loan.PPage σ) (sel v : String) (s : σ),
      ∃ b s1, Loan.setCheckbox p sel v s = (.ok b, s1)) ∧
    (∀ (σ : Type) (p : DPage σ) (sel : String) (s : σ),
      ∃ b s1, safeClick p sel s = (.ok b, s1)) ∧
    (∀ (σ : Type) (p : DPage σ) (sel : String) (v : Option String) (s : σ),
      ∃ b s1, safeFill p sel v s = (.ok b, s1)) ∧
    (∀ (σ : Type) (p : DPage σ) (sel : String) (v : Option String) (s : σ),
      ∃ b s1, safeSelect p sel v s = (.ok b, s1)) ∧
    (∀ (σ : Type) (p : Loan.PPage σ) (sel : String) (s s1 : σ),
      Loan.safeClick p sel s = (.ok true, s1) ↔
        ∃ sa sb, p.waitForSelector sel 5000 s = (.ok (), sa) ∧
          p.scrollIntoView sel sa = (.ok (), sb) ∧ p.click sel sb = (.ok (), s1)) ∧
    (∀ (σ : Type) (p : Loan.PPage σ) (sel str : String) (s : σ),
      (Loan.setInputValue p sel (some str) s).1 = .ok true ↔
        ∃ sa sb, p.waitForSelector sel 4000 s = (.ok (), sa) ∧
          p.setValueScript sel str sa = (.ok (), sb)) ∧
    (∀ (σ : Type) (p : Loan.PPage σ) (sel str : String) (s : σ),
      (Loan.selectOption p sel (some str) s).1 = .ok true ↔
        ∃ sa selected sb, p.waitForSelector sel 4000 s = (.ok (), sa) ∧
          catchTo (p.selectByValue sel str sa) [] = (selected, sb) ∧
          (selected = [] →
            ∃ sc, p.selectByTextScript sel str sb = (.ok true, sc)) ∧
          (selected ≠ [] → ∃ sc, p.dispatchChange sel sb = (.ok (), sc))) ∧
    (∀ (σ : Type) (p : Loan.PPage σ) (sel v : String) (s : σ),
      (Loan.setCheckbox p sel v s).1 = .ok true ↔
        ∃ sa sb, p.waitForSelector sel 3000 s = (.ok (), sa) ∧
          p.setCheckboxScript sel v sa = (.ok (), sb)) ∧
    (∀ (σ : Type) (p : Loan.PPage σ) (sel : String) (s : σ),
      Loan.setInputValue p sel none s = (.ok false, s) ∧
      Loan.selectOption p sel none s = (.ok false, s)) ∧
    (∀ (σ : Type) (p : DPage σ) (sel : String) (v : Option String) (s : σ),
      sel ≠ "" → v ≠ none →
      (safeFill p sel v s).1 = .ok true ∧ (safeSelect p sel v s).1 = .ok true) ∧
    (∀ (σ : Type) (p : DPage σ) (sel : String) (s : σ),
      sel ≠ "" → (safeClick p sel s).1 = .ok true) := by
  refine ⟨?_, ?_, ?_, ?_, ?_, ?_, ?_, ?_, ?_, ?_, ?_, ?_, ?_, ?_⟩
  · intro σ p sel s
    exact tryBool_ok _ s
  · intro σ p sel v s
    cases v with
    | none => exact ⟨false, s, rfl⟩
    | some str => exact tryBool_ok _ s
  · intro σ p sel v s
    cases v with
    | none => exact ⟨false, s, rfl⟩
    | some str => exact tryBool_ok _ s
  · intro σ p sel v s
    exact tryBool_ok _ s
  · intro σ p sel s
    by_cases hsel : (sel == "") = true
    · exact ⟨false, s, by simp [safeClick, hsel]⟩
    · obtain ⟨b, s1, hb⟩ := tryBool_ok (fun s0 =>
        let s1 := (catchTo (p.waitForSelector sel 4000 s0) ()).2
        let s2 := (catchTo (p.click sel 5000 s1) ()).2
        ((.ok true : Except String Bool), s2)) s
      exact ⟨b, s1, by simp [safeClick, hsel]; exact hb⟩
  · intro σ p sel v s
    by_cases hsel : (sel == "") = true
    · exact ⟨false, s, by simp [safeFill, hsel]⟩
    · cases v with
      | none => exact ⟨false, s, by simp [safeFill, hsel]⟩
      | some str =>
        obtain ⟨b, s1, hb⟩ := tryBool_ok (fun s0 =>
          let s1 := (catchTo (p.waitForSelector sel 4000 s0) ()).2
          let s2 := (catchTo (p.fill sel str s1) ()).2
          ((.ok true : Except String Bool), s2)) s
        exact ⟨b, s1, by simp [safeFill, hsel]; exact hb⟩
  · intro σ p sel v s
    by_cases hsel : (sel == "") = true
    · exact ⟨false, s, by simp [safeSelect, hsel]⟩
    · cases v with
      | none => exact ⟨false, s, by simp [safeSelect, hsel]⟩
      | some str =>
        obtain ⟨b, s1, hb⟩ := tryBool_ok (fun s0 =>
          let s1 := (catchTo (p.waitForSelector sel 4000 s0) ()).2
          let s2 :=
            match p.selectOptionByValue sel str s1 with
            | (.ok _, sa) => sa
            | (.error _, sa) => (catchTo (p.selectOptionByLabel sel str sa) ()).2
          ((.ok true : Except String Bool), s2)) s
        exact ⟨b, s1, by simp [safeSelect, hsel]; exact hb⟩
  · intro σ p sel s s1
    exact loanSafeClick_true_iff p sel s s1
  · intro σ p sel str s
    exact setInputValue_true_iff p sel str s
  · intro σ p sel str s
    exact selectOption_true_iff p sel str s
  · intro σ p sel v s
    exact setCheckbox_true_iff p sel v s
  · intro σ p sel s
    exact ⟨rfl, rfl⟩
  · intro σ p sel v s hsel hv
    have hsel2 : (sel == "") = false := by simp [hsel]
    cases v with
    | none => exact absurd rfl hv
    | some str =>
      constructor
      · simp [safeFill, hsel2, tryBool]
      · simp only [safeSelect, hsel2, Bool.false_eq_true, if_false]
        rcases hsv : p.selectOptionByValue sel str
            ((catchTo (p.waitForSelector sel 4000 s) ()).2) with ⟨r, sa⟩
        cases r <;> simp [tryBool, hsv]
  · intro σ p sel s hsel
    have hsel2 : (sel == "") = false := by simp [hsel]
    simp [safeClick, hsel2, tryBool]

/-- Witness for C2: concrete applications of the success-reporting,
never-throws and argument-validity conjuncts, on the all-succeeding and
all-rejecting pages. -/
theorem safeActions_never_throw_w :
    (Loan.setInputValue Loan.trivPage "#UserName" (some "alice") ()).1 = .ok true ∧
    (Loan.setCheckbox Loan.trivPage "#IdCash" "1" ()).1 = .ok true ∧
    (safeFill fillFailPage "#UserName" (some "alice") 0).1 = .ok true ∧
    (safeSelect fillFailPage "#Language" (some "en") 0).1 = .ok true ∧
    (safeClick fillFailPage "#loginButton" 0).1 = .ok true :=
  ⟨(safeActions_never_throw.2.2.2.2.2.2.2.2.1 Unit Loan.trivPage "#UserName"
      "alice" ()).mpr ⟨(), (), rfl, rfl⟩,
   (safeActions_never_throw.2.2.2.2.2.2.2.2.2.2.1 Unit Loan.trivPage "#IdCash"
      "1" ()).mpr ⟨(), (), rfl, rfl⟩,
   (safeActions_never_throw.2.2.2.2.2.2.2.2.2.2.2.2.1 Nat fillFailPage "#UserName"
      (some "alice") 0 (by decide) (by decide)).1,
   (safeActions_never_throw.2.2.2.2.2.2.2.2.2.2.2.2.1 Nat fillFailPage "#Language"
      (some "en") 0 (by decide) (by decide)).2,
   safeActions_never_throw.2.2.2.2.2.2.2.2.2.2.2.2.2 Nat fillFailPage "#loginButton" 0
      (by decide)⟩

/-- Counterexample for C2: on a page where every primitive rejects, the
driver safeFill still resolves true although the fill operation failed (the
count of successful fill mutations stays zero), so the returned boolean does
not report the success of the attempted DOM operation. -/
theorem safeFill_true_despite_failure_cex :
    safeFill fillFailPage "#UserName" (some "alice") 0 = (.ok true, 0) ∧
    (fillFailPage.fill "#UserName" "alice" 0).1 = .error "fill failed: element not found" :=
  ⟨rfl, rfl⟩

/-- C8: the driver safeFill resolves false exactly when the selector is
falsy or the value is nullish, and true for every other input on every page
behavior, since both inner promise rejections are caught before the return. -/
theorem safeFill_boolean_reports_arguments :
    ∀ (σ : Type) (p : DPage σ) (sel : String) (v : Option String) (s : σ),
      (safeFill p sel v s).1 = .ok (!(sel == "") && v.isSome) := by
  intro σ p sel v s
  by_cases hsel : (sel == "") = true
  · cases v <;> simp [safeFill, hsel]
  · have hsel2 : (sel == "") = false := by simpa using hsel
    cases v with
    | none => simp [safeFill, hsel2]
    | some str =>
      simp only [safeFill, hsel2, Bool.false_eq_true, if_false, Option.isSome_some,
        Bool.not_false, Bool.and_true]
      simp [tryBool]

/-! ## Login retry loop and row iteration (automation.customized.js main) -/

/-- The loop bound computed by the driver: attempt numbers run from 1 to
Math.max(1, RETRY_LOGIN). -/
def RETRYlimit (n : Int) : Nat := (max 1 n).toNat

/-- One run of the retry loop starting at attempt number i with the given
remaining fuel.  The outcome oracle reports, per attempt number, either a
thrown login error or the value of the success heuristic.  Returns the
loggedIn flag, the number of attempts performed, and the last captured
login error. -/
def loginAttemptsFrom (outcome : Nat → Except String Bool) : Nat → Nat → Bool × Nat × Option String
  | _, 0 => (false, 0, none)
  | i, fuel + 1 =>
    match outcome i with
    | .ok true => (true, 1, none)
    | .ok false =>
      match loginAttemptsFrom outcome (i + 1) fuel with
      | (b, n, e) => (b, n + 1, e)
    | .error msg =>
      match loginAttemptsFrom outcome (i + 1) fuel with
      | (b, n, e) => (b, n + 1, if e.isSome then e else some msg)

/-- Embedding of the retry-login for-loop of the driver main loop. -/
def loginLoop (n : Int) (outcome : Nat → Except String Bool) : Bool × Nat × Option String :=
  loginAttemptsFrom outcome 1 (RETRYlimit n)

lemma loginAttemptsFrom_le (outcome : Nat → Except String Bool) :
    ∀ (fuel i : Nat), (loginAttemptsFrom outcome i fuel).2.1 ≤ fuel := by
  intro fuel
  induction fuel with
  | zero => intro i; simp [loginAttemptsFrom]
  | succ fuel ih =>
    intro i
    cases ho : outcome i with
    | ok b =>
      cases b with
      | true => simp [loginAttemptsFrom, ho]
      | false =>
        rcases hrec : loginAttemptsFrom outcome (i + 1) fuel with ⟨b2, n2, e2⟩
        have hle : n2 ≤ fuel := by
          have := ih (i + 1)
          rw [hrec] at this
          simpa using this
        simp only [loginAttemptsFrom, ho, hrec]
        simp
        omega
    | error msg =>
      rcases hrec : loginAttemptsFrom outcome (i + 1) fuel with ⟨b2, n2, e2⟩
      have hle : n2 ≤ fuel := by
        have := ih (i + 1)
        rw [hrec] at this
        simpa using this
      simp only [loginAttemptsFrom, ho, hrec]
      simp
      omega

lemma loginAttemptsFrom_first_success (outcome : Nat → Except String Bool) :
    ∀ (fuel i k : Nat), i ≤ k → k < i + fuel → outcome k = .ok true →
      (∀ j, i ≤ j → j < k → outcome j ≠ .ok true) →
      (loginAttemptsFrom outcome i fuel).1 = true ∧
      (loginAttemptsFrom outcome i fuel).2.1 = k + 1 - i := by
  intro fuel
  induction fuel with
  | zero =>
    intro i k hik hk _ _
    omega
  | succ fuel ih =>
    intro i k hik hk hsucc hprev
    by_cases hieq : i = k
    · subst hieq
      simp [loginAttemptsFrom, hsucc]
    · have hlt : i < k := lt_of_le_of_ne hik hieq
      have hne := hprev i (le_refl i) hlt
      have hrec2 := ih (i + 1) k (by omega) (by omega) hsucc
        (fun j hj1 hj2 => hprev j (by omega) hj2)
      rcases hrec : loginAttemptsFrom outcome (i + 1) fuel with ⟨b2, n2, e2⟩
      rw [hrec] at hrec2
      cases ho : outcome i with
      | ok b =>
        cases b with
        | true => exact absurd ho hne
        | false =>
          simp only [loginAttemptsFrom, ho, hrec]
          exact ⟨hrec2.1, by have := hrec2.2; simp at this ⊢; omega⟩
      | error msg =>
        simp only [loginAttemptsFrom, ho, hrec]
        exact ⟨hrec2.1, by have := hrec2.2; simp at this ⊢; omega⟩

/-- C5 as amended: the driver performs at most max(1, RETRY_LOGIN) login
attempts per record (equal to RETRY_LOGIN whenever it is at least 1), and
it stops at the first attempt on which the success heuristic returns
true. -/
theorem loginLoop_retry_bound :
    ∀ (n : Int) (outcome : Nat → Except String Bool),
      (loginLoop n outcome).2.1 ≤ RETRYlimit n ∧
      (1 ≤ n → (RETRYlimit n : Int) = n) ∧
      (∀ k, 1 ≤ k → k ≤ RETRYlimit n → outcome k = .ok true →
        (∀ j, 1 ≤ j → j < k → outcome j ≠ .ok true) →
        (loginLoop n outcome).1 = true ∧ (loginLoop n outcome).2.1 = k) := by
  intro n outcome
  refine ⟨loginAttemptsFrom_le outcome (RETRYlimit n) 1, ?_, ?_⟩
  · intro hn
    simp only [RETRYlimit]
    omega
  · intro k hk1 hklim hsucc hprev
    have := loginAttemptsFrom_first_success outcome (RETRYlimit n) 1 k hk1
      (by omega) hsucc hprev
    exact ⟨this.1, by rw [loginLoop, this.2]; omega⟩

/-- Witness for C5: with RETRY_LOGIN three and the heuristic first true at
attempt two, the loop logs in after exactly two attempts. -/
theorem loginLoop_retry_bound_w :
    (loginLoop 3 (fun i => Except.ok (i == 2))).1 = true ∧
    (loginLoop 3 (fun i => Except.ok (i == 2))).2.1 = 2 := by
  refine (loginLoop_retry_bound 3 (fun i => Except.ok (i == 2))).2.2 2
    (by decide) (by decide) rfl ?_
  intro j h1 h2
  have : j = 1 := by omega
  subst this
  intro hcon
  simp at hcon

/-- Counterexample for C5 as stated: with RETRY_LOGIN configured to zero and
a never-succeeding heuristic, the driver still performs one login attempt,
exceeding the configured count. -/
theorem loginLoop_zero_retries_cex :
    (loginLoop 0 (fun _ => Except.ok false)).2.1 = 1 ∧ ¬ ((1 : Nat) ≤ 0) :=
  ⟨rfl, by decide⟩

/-- Behavior of one input record in the driver main loop: the credentials
row, the per-attempt login outcome and the outcome of the form fill step. -/
structure RowRun where
  userName : String
  loginOutcome : Nat → Except String Bool
  formFill : Except String Unit

/-- One appended CSV result row (the screenshot, state-file and target
columns are omitted from the model). -/
structure CsvRec where
  username : String
  success : String
  message : String
deriving Repr, DecidableEq

/-- Embedding of the per-record body of the driver main loop: retry login;
on failure write the failure row and continue; on success run the form fill
inside its own try/catch whose catch only logs, then write the success
row.  The second component is the log lines appended. -/
def processRow (n : Int) (r : RowRun) : CsvRec × List String :=
  let u := jsOr r.userName "user_fallback"
  match loginLoop n r.loginOutcome with
  | (false, _, lastErr) =>
    ({ username := u, success := "false",
       message := "Login failed: " ++ lastErr.getD "still on login page" },
     ["Login may have failed for " ++ u])
  | (true, _, _) =>
    match r.formFill with
    | .error e =>
      ({ username := u, success := "true", message := "OK" },
       ["Login success for " ++ u, "FAS form fill error: " ++ e, "Done for " ++ u])
    | .ok _ =>
      ({ username := u, success := "true", message := "OK" },
       ["Login success for " ++ u, "Done for " ++ u])

/-- The MAX_ROWS guard: falsy (absent or zero) means no cap. -/
def jsCap (maxRows : Option Int) (processed : Nat) : Bool :=
  match maxRows with
  | none => false
  | some m => !(m == 0) && decide (m ≤ (processed : Int))

/-- Embedding of the driver main loop over the records read from Excel. -/
def driverLoop (n : Int) (maxRows : Option Int) : List RowRun → Nat → List CsvRec
  | [], _ => []
  | r :: rest, processed =>
    if jsCap maxRows processed then []
    else (processRow n r).1 :: driverLoop n maxRows rest (processed + 1)

lemma driverLoop_none (n : Int) :
    ∀ (rows : List RowRun) (processed : Nat),
      driverLoop n none rows processed = rows.map (fun r => (processRow n r).1) := by
  intro rows
  induction rows with
  | nil => intro processed; rfl
  | cons r rest ih =>
    intro processed
    simp [driverLoop, jsCap, ih (processed + 1)]

/-- C6 as amended: without a row cap the driver emits exactly one CSV row
per record, in order, regardless of login failures or form fill exceptions;
a login failure yields the failure row; an exception thrown during the form
fill is caught and logged, but the CSV row of that record still reports
success. -/
theorem driver_advances_every_record :
    ∀ (n : Int) (rows : List RowRun),
      driverLoop n none rows 0 = rows.map (fun r => (processRow n r).1) ∧
      (∀ r : RowRun, (loginLoop n r.loginOutcome).1 = false →
        (processRow n r).1.success = "false") ∧
      (∀ (r : RowRun) (e : String),
        (loginLoop n r.loginOutcome).1 = true → r.formFill = .error e →
        (processRow n r).1.success = "true" ∧
        ("FAS form fill error: " ++ e) ∈ (processRow n r).2) := by
  intro n rows
  refine ⟨driverLoop_none n rows 0, ?_, ?_⟩
  · intro r hfail
    rcases hll : loginLoop n r.loginOutcome with ⟨b, n2, e2⟩
    rw [hll] at hfail
    simp at hfail
    subst hfail
    simp [processRow, hll]
  · intro r e hlog hff
    rcases hll : loginLoop n r.loginOutcome with ⟨b, n2, e2⟩
    rw [hll] at hlog
    simp at hlog
    subst hlog
    simp [processRow, hll, hff]

/-- Witness for C6: a concrete record whose form fill throws still gets a
success CSV row, derived by applying the theorem. -/
theorem driver_advances_every_record_w :
    (processRow 1 ⟨"erin", fun _ => Except.ok true, Except.error "nav lost"⟩).1.success
      = "true" :=
  ((driver_advances_every_record 1 []).2.2
    ⟨"erin", fun _ => Except.ok true, Except.error "nav lost"⟩ "nav lost"
    (by decide) rfl).1

/-- Counterexample for C6 as stated: the claim requires a failure row for a
record whose form fill raised an unhandled exception, but the driver catches
it in the inner try/catch and writes a row with success true; the queue
still advances. -/
theorem formFill_error_logs_success_cex :
    (processRow 1 ⟨"carol", fun _ => Except.ok true, Except.error "boom"⟩).1.success = "true" ∧
    (processRow 1 ⟨"carol", fun _ => Except.ok true, Except.error "boom"⟩).1.success ≠ "false" ∧
    driverLoop 1 none
      [⟨"carol", fun _ => Except.ok true, Except.error "boom"⟩,
       ⟨"dave", fun _ => Except.ok true, Except.ok ()⟩] 0
      = [⟨"carol", "true", "OK"⟩, ⟨"dave", "true", "OK"⟩] :=
  ⟨rfl, by decide, rfl⟩

end Driver

namespace Sel

/-! ## Concrete select-element semantics for the selection-strategy claim

A single select element with its option list (value, visible text) and the
index of the currently selected option. -/

structure Dom where
  options : List (String × String)
  selected : Option Nat
deriving Repr, DecidableEq

/-- First index (and element) satisfying the predicate. -/
def findWithIdx (pred : α → Bool) : List α → Option (Nat × α)
  | [] => none
  | a :: rest =>
    if pred a then some (0, a)
    else (findWithIdx pred rest).map (fun q => (q.1 + 1, q.2))

/-- Puppeteer semantics of the selectOption primitives over the concrete
select element: page.select selects the first option whose value matches and
returns the selected values; the by-text script mirrors the evaluate body of
selectOption, where assigning el.value selects the first option carrying the
matched option's value. -/
def selectPage : Loan.PPage Dom where
  waitForSelector := fun _ _ d => (.ok (), d)
  scrollIntoView := fun _ d => (.ok (), d)
  click := fun _ d => (.ok (), d)
  setValueScript := fun _ _ d => (.ok (), d)
  focusSel := fun _ d => (.ok (), d)
  selectByValue := fun _ v d =>
    match findWithIdx (fun o => o.1 == v) d.options with
    | some q => (.ok [v], { d with selected := some q.1 })
    | none => (.ok [], d)
  dispatchChange := fun _ d => (.ok (), d)
  selectByTextScript := fun _ txt d =>
    match findWithIdx (fun o => lowerStr (trimStr o.2) == lowerStr (trimStr txt)) d.options with
    | some q =>
      match findWithIdx (fun o => o.1 == q.2.1) d.options with
      | some q2 => (.ok true, { d with selected := some q2.1 })
      | none => (.ok true, d)
    | none =>
      match findWithIdx (fun o => containsSub (lowerStr o.2) (lowerStr txt)) d.options with
      | some q =>
        match findWithIdx (fun o => o.1 == q.2.1) d.options with
        | some q2 => (.ok true, { d with selected := some q2.1 })
        | none => (.ok true, d)
      | none => (.ok false, d)
  setCheckboxScript := fun _ _ d => (.ok (), d)
  tagNameOf := fun _ d => (.ok (some "select"), d)
  typeOf := fun _ d => (.ok (some "select"), d)
  queryExists := fun _ d => (.ok false, d)
  clickButtonScript := fun _ d => (.ok (), d)
  goto := fun _ d => (.ok (), d)
  submitFormScript := fun d => (.ok (), d)
  waitForTimeout := fun _ d => d

/-- Playwright semantics of the two selectOption calls made by the driver
safeSelect: by value, and by label with an exact (trimmed, case-sensitive)
match; either rejects when nothing matches. -/
def pwSelectPage : Driver.DPage Dom where
  waitForSelector := fun _ _ d => (.ok (), d)
  click := fun _ _ d => (.ok (), d)
  fill := fun _ _ d => (.ok (), d)
  selectOptionByValue := fun _ v d =>
    match findWithIdx (fun o => o.1 == v) d.options with
    | some q => (.ok (), { d with selected := some q.1 })
    | none => (.error "no option matched the value", d)
  selectOptionByLabel := fun _ v d =>
    match findWithIdx (fun o => trimStr o.2 == v) d.options with
    | some q => (.ok (), { d with selected := some q.1 })
    | none => (.error "no option matched the label", d)

inductive SelStrategy where
  | byValue
  | byTextExact
  | byTextSub
deriving Repr, DecidableEq

/-- The selection procedure in the words of the claim: attempt selection by
option value; only if that fails, by visible text with an exact
case-insensitive match; only if that fails, by a substring match of the
visible text. -/
def claimedSelect (opts : List (String × String)) (v : String) : Option (Nat × SelStrategy) :=
  match findWithIdx (fun o => o.1 == v) opts with
  | some q => some (q.1, .byValue)
  | none =>
    match findWithIdx (fun o => lowerStr (trimStr o.2) == lowerStr (trimStr v)) opts with
    | some q => some (q.1, .byTextExact)
    | none =>
      match findWithIdx (fun o => containsSub (lowerStr o.2) (lowerStr v)) opts with
      | some q => some (q.1, .byTextSub)
      | none => none

/-- Option values are pairwise distinct. -/
def valuesNodup : List (String × String) → Bool
  | [] => true
  | o :: rest => rest.all (fun x => !(x.1 == o.1)) && valuesNodup rest

lemma findWithIdx_get (pred : α → Bool) :
    ∀ (l : List α) (q : Nat × α), findWithIdx pred l = some q →
      ∃ h : q.1 < l.length, l.get ⟨q.1, h⟩ = q.2 := by
  intro l
  induction l with
  | nil => intro q h; simp [findWithIdx] at h
  | cons a rest ih =>
    intro q h
    by_cases hp : pred a = true
    · simp [findWithIdx, hp] at h
      have h2 : q = (0, a) := h.symm
      subst h2
      exact ⟨by simp, rfl⟩
    · cases hrec : findWithIdx pred rest with
      | none => simp [findWithIdx, hp, hrec] at h
      | some q2 =>
        simp [findWithIdx, hp, hrec] at h
        have h2 : q = (q2.1 + 1, q2.2) := h.symm
        subst h2
        obtain ⟨hlt, hget⟩ := ih q2 hrec
        exact ⟨by simpa using Nat.succ_lt_succ hlt, by simpa using hget⟩

lemma findWithIdx_value_self :
    ∀ (l : List (String × String)), valuesNodup l = true →
      ∀ (j : Nat) (hj : j < l.length),
        findWithIdx (fun o => o.1 == (l.get ⟨j, hj⟩).1) l = some (j, l.get ⟨j, hj⟩) := by
  intro l
  induction l with
  | nil => intro _ j hj; simp at hj
  | cons a rest ih =>
    intro hnd j hj
    have hparts : (∀ x ∈ rest, (x.1 == a.1) = false) ∧ valuesNodup rest = true := by
      simp only [valuesNodup, Bool.and_eq_true, List.all_eq_true] at hnd
      exact ⟨fun x hx => by simpa using hnd.1 x hx, hnd.2⟩
    cases j with
    | zero =>
      simp [findWithIdx]
    | succ k =>
      have hk : k < rest.length := by simpa using hj
      have hgr : (a :: rest).get ⟨k + 1, hj⟩ = rest.get ⟨k, hk⟩ := rfl
      have hmem : rest.get ⟨k, hk⟩ ∈ rest := List.get_mem rest k hk
      have h1 := hparts.1 (rest.get ⟨k, hk⟩) hmem
      have hpa : (a.1 == (rest.get ⟨k, hk⟩).1) = false := by
        cases hbe : (a.1 == (rest.get ⟨k, hk⟩).1) with
        | false => rfl
        | true =>
          have heq := eq_of_beq hbe
          rw [← heq] at h1
          simp at h1
      rw [hgr]
      simp only [findWithIdx, hpa, Bool.false_eq_true, if_false]
      rw [ih hparts.2 k hk]
      rfl

/-- C7 as amended: over the concrete select element with pairwise distinct
option values, the puppeteer selectOption realizes exactly the claimed
strategy order (value, then exact case-insensitive text, then substring),
selecting the option the claimed procedure picks and reporting failure only
when no strategy matches; the driver safeSelect, by contrast, attempts only
value and exact trimmed label, so it leaves the selection unchanged whenever
those two fail, even when a text-based match exists. -/
theorem selectOption_strategy_order :
    ∀ (d : Dom) (v : String), valuesNodup d.options = true →
      (∀ i strat, claimedSelect d.options v = some (i, strat) →
        Loan.selectOption selectPage "#Product" (some v) d
          = (.ok true, { d with selected := some i })) ∧
      (claimedSelect d.options v = none →
        Loan.selectOption selectPage "#Product" (some v) d = (.ok false, d)) ∧
      (∀ (d2 : Dom) (w : String),
        findWithIdx (fun o => o.1 == w) d2.options = none →
        findWithIdx (fun o => trimStr o.2 == w) d2.options = none →
        Driver.safeSelect pwSelectPage "#Product" (some w) d2 = (.ok true, d2)) := by
  intro d v hnd
  refine ⟨?_, ?_, ?_⟩
  · intro i strat hcs
    cases hfv : findWithIdx (fun o => o.1 == v) d.options with
    | some q =>
      have hi : i = q.1 := by
        simp [claimedSelect, hfv] at hcs
        exact hcs.1.symm
      subst hi
      simp [Loan.selectOption, tryBool, Loan.selectOptionBody, selectPage, catchTo, hfv]
    | none =>
      cases hfe : findWithIdx (fun o => lowerStr (trimStr o.2) == lowerStr (trimStr v)) d.options with
      | some q =>
        obtain ⟨hq, hget⟩ := findWithIdx_get _ d.options q hfe
        have hval : findWithIdx (fun o => o.1 == q.2.1) d.options = some (q.1, q.2) := by
          have := findWithIdx_value_self d.options hnd q.1 hq
          rw [hget] at this
          exact this
        have hi : i = q.1 := by
          simp [claimedSelect, hfv, hfe] at hcs
          exact hcs.1.symm
        subst hi
        simp [Loan.selectOption, tryBool, Loan.selectOptionBody, selectPage, catchTo,
          hfv, hfe, hval]
      | none =>
        cases hfs : findWithIdx (fun o => containsSub (lowerStr o.2) (lowerStr v)) d.options with
        | some q =>
          obtain ⟨hq, hget⟩ := findWithIdx_get _ d.options q hfs
          have hval : findWithIdx (fun o => o.1 == q.2.1) d.options = some (q.1, q.2) := by
            have := findWithIdx_value_self d.options hnd q.1 hq
            rw [hget] at this
            exact this
          have hi : i = q.1 := by
            simp [claimedSelect, hfv, hfe, hfs] at hcs
            exact hcs.1.symm
          subst hi
          simp [Loan.selectOption, tryBool, Loan.selectOptionBody, selectPage, catchTo,
            hfv, hfe, hfs, hval]
        | none =>
          simp [claimedSelect, hfv, hfe, hfs] at hcs
  · intro hnone
    cases hfv : findWithIdx (fun o => o.1 == v) d.options with
    | some q => simp [claimedSelect, hfv] at hnone
    | none =>
      cases hfe : findWithIdx (fun o => lowerStr (trimStr o.2) == lowerStr (trimStr v)) d.options with
      | some q => simp [claimedSelect, hfv, hfe] at hnone
      | none =>
        cases hfs : findWithIdx (fun o => containsSub (lowerStr o.2) (lowerStr v)) d.options with
        | some q => simp [claimedSelect, hfv, hfe, hfs] at hnone
        | none =>
          simp [Loan.selectOption, tryBool, Loan.selectOptionBody, selectPage, catchTo,
            hfv, hfe, hfs]
  · intro d2 w hv hl
    have hsel : (("#Product" : String) == "") = false := by decide
    simp [Driver.safeSelect, tryBool, pwSelectPage, catchTo, hsel, hv, hl]

/-- A two-option select used for the C7 witness. -/
def wDom : Dom := { options := [("a", "Alpha"), ("b", "Beta")], selected := none }

/-- Witness for C7: with no value match, the exact case-insensitive text
stage fires and selectOption selects the matching option. -/
theorem selectOption_strategy_order_w :
    Loan.selectOption selectPage "#Product" (some "beta") wDom
      = (.ok true, { wDom with selected := some 1 }) :=
  ((selectOption_strategy_order wDom "beta" (by decide)).1 1 SelStrategy.byTextExact
    (by decide))

/-- A select on which only the substring stage of the claimed procedure can
match. -/
def cexDom : Dom := { options := [("1", "Hello World")], selected := none }

/-- Counterexample for C7 as stated: the claimed procedure selects option 0
of cexDom for the value world through its substring stage, but the driver
safeSelect (one of the select-option Safe DOM Actions the claim covers)
returns true while leaving the selection unchanged: it never attempts a
case-insensitive or substring text match. -/
theorem safeSelect_no_substring_cex :
    claimedSelect cexDom.options "world" = some (0, SelStrategy.byTextSub) ∧
    Driver.safeSelect pwSelectPage "#Product" (some "world") cexDom = (.ok true, cexDom) ∧
    cexDom.selected = none :=
  ⟨by decide, rfl, rfl⟩

end Sel

end Automation
